import Mathlib

/-!
Shallow embedding of the `ml_core` package of this repository
(`kmeans.py`, `decision_tree.py`, `random_forest.py`) and proofs of the
frozen specification claims about it.

Numeric model: the Python code computes with numpy float64; the embedding
uses exact arithmetic — `ℚ` for feature values, distances and inertia, and
`ℝ` for the entropy expressions (which involve `log2`).  Labels are `ℕ`.
-/

/-- Python truthiness test used by `if self.random_state:` in all three
components: `None` and `0` are falsy, any other integer is truthy. -/
def truthy : Option Int → Bool
  | none => false
  | some v => v != 0

/-- Modelled from the spec: the numpy global pseudo-random generator is
external to the repository.  It is modelled as an infinite stream of
naturals plus a read position; the claims only use the facts that draws
advance the position and that seeding puts the generator into a state
fully determined by the seed. -/
structure Rng where
  stream : Nat → Nat
  pos : Nat

/-- One raw draw from the generator stream. -/
def Rng.next (r : Rng) : Nat × Rng :=
  (r.stream r.pos, ⟨r.stream, r.pos + 1⟩)

/-- Modelled from the spec: the stream of values produced by the (external)
numpy generator after `np.random.seed s`.  The concrete values are
irrelevant to every claim; only that they are a function of `s` alone. -/
def mtStream (s : Nat) : Nat → Nat := fun i => s + i

/-- Modelled from the spec: `np.random.seed s` discards the previous global
generator state and installs the state determined by `s`. -/
def npSeed (s : Int) (_r : Rng) : Rng := ⟨mtStream s.toNat, 0⟩

/-- Modelled from the spec: `np.random.choice n` — one uniform draw from
`[0, n)`. -/
def npChoice (n : Nat) (r : Rng) : Nat × Rng :=
  let (v, r1) := r.next
  (v % n, r1)

/-- Index of the first minimum of a list (`np.argmin` semantics: ties are
broken by the lowest index); `0` on the empty list. -/
def argminIdx {α : Type} [LinearOrder α] : List α → Nat
  | [] => 0
  | [_] => 0
  | a :: b :: rest =>
      if a ≤ (b :: rest).getD (argminIdx (b :: rest)) b then 0
      else argminIdx (b :: rest) + 1

/-- Index of the first maximum of a list (`np.argmax` semantics: ties are
broken by the lowest index); `0` on the empty list. -/
def argmaxIdx {α : Type} [LinearOrder α] : List α → Nat
  | [] => 0
  | [_] => 0
  | a :: b :: rest =>
      if a < (b :: rest).getD (argmaxIdx (b :: rest)) b then argmaxIdx (b :: rest) + 1
      else 0

/-- Insert a value into a sorted list, keeping it sorted ascending. -/
def insertSorted {α : Type} [LinearOrder α] (a : α) : List α → List α
  | [] => [a]
  | b :: bs => if a ≤ b then a :: b :: bs else b :: insertSorted a bs

/-- The distinct values of a list in ascending order (`np.unique`). -/
def sortedDistinct {α : Type} [LinearOrder α] (l : List α) : List α :=
  l.dedup.foldr insertSorted []

/- ------------------------------------------------------------------ -/
/- `kmeans.py` -/
/- ------------------------------------------------------------------ -/

/-- State of a `KMeans` instance: the constructor arguments plus the fitted
attributes, which are `None` until `fit` runs. -/
structure KMeans where
  n_clusters : Nat
  max_iters : Nat
  random_state : Option Int
  centroids : Option (List (List ℚ))
  labels : Option (List Nat)
  inertia : Option ℚ
deriving DecidableEq

/-- `KMeans.__init__`: stores the configuration, fitted state is `None`. -/
def KMeans.init (nClusters maxIters : Nat) (randomState : Option Int) : KMeans :=
  ⟨nClusters, maxIters, randomState, none, none, none⟩

/-- Squared Euclidean distance between two feature vectors.
`_calculate_distance` applies `np.sqrt` to this quantity; since the
distances are only ever consumed through the row-wise first-argmin
(`_assign_clusters`) and `sqrt` is strictly monotone on nonnegatives, the
embedding keeps the squared distances (see `argminIdx_map_sqrt`). -/
def sqDist (a b : List ℚ) : ℚ := (List.zipWith (fun x y => (x - y) ^ 2) a b).sum

/-- `_calculate_distance`: the matrix of (squared, see `sqDist`) distances
from every sample to every centroid, one row per sample. -/
def KMeans.calculateDistance (X centroids : List (List ℚ)) : List (List ℚ) :=
  X.map fun x => centroids.map fun c => sqDist x c

/-- `_assign_clusters`: row-wise first-argmin of the distance matrix. -/
def KMeans.assignClusters (distances : List (List ℚ)) : List Nat :=
  distances.map argminIdx

/-- The rows of `X` assigned to cluster `i` (`X[labels == i]`). -/
def clusterPoints (X : List (List ℚ)) (labels : List Nat) (i : Nat) : List (List ℚ) :=
  ((X.zip labels).filter fun p => p.2 == i).map Prod.fst

/-- Componentwise mean of a set of `d`-dimensional vectors
(`np.mean(cluster_points, axis=0)`). -/
def vecMean (d : Nat) (vs : List (List ℚ)) : List ℚ :=
  (List.range d).map fun j => (vs.map fun v => v.getD j 0).sum / (vs.length : ℚ)

/-- `_update_centroids` (with `k` the instance's `n_clusters`): centroids
are rebuilt from a fresh `np.zeros((k, d))` matrix; a cluster with at least
one assigned sample gets the mean of its samples, a cluster with none keeps
the zero row. -/
def KMeans.updateCentroids (k : Nat) (X : List (List ℚ)) (labels : List Nat) :
    List (List ℚ) :=
  (List.range k).map fun i =>
    let pts := clusterPoints X labels i
    if 0 < pts.length then vecMean (X.headD []).length pts
    else List.replicate (X.headD []).length 0

/-- `_calculate_inertia`: sum over clusters of the squared distances of the
cluster's samples to its centroid. -/
def KMeans.calculateInertia (k : Nat) (X : List (List ℚ)) (labels : List Nat)
    (centroids : List (List ℚ)) : ℚ :=
  ((List.range k).map fun i =>
    ((clusterPoints X labels i).map fun x => sqDist x (centroids.getD i [])).sum).sum

/-- The `k` row draws of `_initialize_centroids`
(`X[np.random.choice(n_samples)]`, `k` times, with replacement). -/
def KMeans.drawRows (X : List (List ℚ)) : Nat → Rng → List (List ℚ) × Rng
  | 0, r => ([], r)
  | k + 1, r =>
      let (i, r1) := npChoice X.length r
      let (rest, r2) := KMeans.drawRows X k r1
      (X.getD i [] :: rest, r2)

/-- `_initialize_centroids`: seed the generator when `random_state` is
truthy, then draw `n_clusters` rows of `X` with replacement. -/
def KMeans.initCentroids (m : KMeans) (X : List (List ℚ)) (r : Rng) :
    List (List ℚ) × Rng :=
  let r1 := if truthy m.random_state then npSeed (m.random_state.getD 0) r else r
  KMeans.drawRows X m.n_clusters r1

/-- Mutable loop state of `KMeans.fit`: the current centroids and the stored
assignment (`self.labels`, possibly still `None`). -/
structure KMState where
  centroids : List (List ℚ)
  labels : Option (List Nat)
deriving DecidableEq

/-- How the `fit` loop ended: by the convergence check at iteration `t`, or
by exhausting `max_iters`. -/
inductive KMExit where
  | converged (t : Nat)
  | maxedOut
deriving DecidableEq

/-- The iteration loop of `KMeans.fit`: compute distances, assign clusters,
stop if `t > 0` and the fresh assignment equals the stored one, otherwise
store the assignment and recompute centroids. -/
def KMeans.fitLoop (k : Nat) (X : List (List ℚ)) :
    Nat → Nat → KMState → KMState × KMExit
  | 0, _, s => (s, KMExit.maxedOut)
  | fuel + 1, t, s =>
      let newLabels := KMeans.assignClusters (KMeans.calculateDistance X s.centroids)
      if 0 < t ∧ s.labels = some newLabels then (s, KMExit.converged t)
      else KMeans.fitLoop k X fuel (t + 1)
        ⟨KMeans.updateCentroids k X newLabels, some newLabels⟩

/-- `KMeans.fit`: initialize centroids, run the loop for at most
`max_iters` iterations, then store the final inertia. -/
def KMeans.fit (m : KMeans) (X : List (List ℚ)) (r : Rng) : KMeans × Rng :=
  let p := KMeans.initCentroids m X r
  let s := (KMeans.fitLoop m.n_clusters X m.max_iters 0 ⟨p.1, m.labels⟩).1
  ({ m with
      centroids := some s.centroids
      labels := s.labels
      inertia := some (KMeans.calculateInertia m.n_clusters X (s.labels.getD []) s.centroids) },
    p.2)

/-- The not-fitted `ValueError` message raised by all three components. -/
def notFittedMsg : String := "Model not fitted: call fit() before predict()"

/-- `KMeans.predict`: raises the not-fitted error when `centroids` is still
`None`, otherwise assigns each sample to the nearest stored centroid. -/
def KMeans.predict (m : KMeans) (X : List (List ℚ)) : Except String (List Nat) :=
  match m.centroids with
  | none => Except.error notFittedMsg
  | some c => Except.ok (KMeans.assignClusters (KMeans.calculateDistance X c))

/-- `KMeans.fit_predict`: fit, then return the stored labels. -/
def KMeans.fitPredict (m : KMeans) (X : List (List ℚ)) (r : Rng) :
    Option (List Nat) × Rng :=
  let p := KMeans.fit m X r
  (p.1.labels, p.2)

/- ------------------------------------------------------------------ -/
/- `decision_tree.py` -/
/- ------------------------------------------------------------------ -/

/-- A node of the decision tree.  The Python `Node` stores optional fields;
per the data model it is a tagged variant: a leaf holding a predicted label
or an internal node holding a feature index, a threshold and two children. -/
inductive Node where
  | leaf (value : Nat)
  | inner (feature : Nat) (threshold : ℚ) (left right : Node)
deriving DecidableEq

/-- State of a `DecisionTree` instance: configuration plus the fitted root,
`None` until `fit` runs. -/
structure DecisionTree where
  max_depth : Nat
  min_samples_split : Nat
  min_samples_leaf : Nat
  random_state : Option Int
  root : Option Node
deriving DecidableEq

/-- `DecisionTree.__init__`. -/
def DecisionTree.init (maxDepth minSamplesSplit minSamplesLeaf : Nat)
    (randomState : Option Int) : DecisionTree :=
  ⟨maxDepth, minSamplesSplit, minSamplesLeaf, randomState, none⟩

/-- `_entropy`: base-2 entropy of the class proportions, with `1e-8` added
inside the log to avoid a domain error on a zero-probability class. -/
noncomputable def entropy (y : List Nat) : ℝ :=
  -(((sortedDistinct y).map fun v =>
      ((y.count v : ℝ) / (y.length : ℝ)) *
        Real.logb 2 ((y.count v : ℝ) / (y.length : ℝ) + 1e-8)).sum)

/-- The (row, label) pairs on the left of a candidate split
(`left_mask = X[:, feature] <= threshold`). -/
def leftPairs (X : List (List ℚ)) (y : List Nat) (feature : Nat) (threshold : ℚ) :
    List (List ℚ × Nat) :=
  (X.zip y).filter fun p => decide (p.1.getD feature 0 ≤ threshold)

/-- The (row, label) pairs on the right of a candidate split (`~left_mask`). -/
def rightPairs (X : List (List ℚ)) (y : List Nat) (feature : Nat) (threshold : ℚ) :
    List (List ℚ × Nat) :=
  (X.zip y).filter fun p => !(decide (p.1.getD feature 0 ≤ threshold))

/-- `_information_gain`: `0` when a side of the split is empty, otherwise the
parent entropy minus the weighted entropy of the two sides. -/
noncomputable def informationGain (X : List (List ℚ)) (y : List Nat)
    (feature : Nat) (threshold : ℚ) : ℝ :=
  if (leftPairs X y feature threshold).length = 0 ∨
      (rightPairs X y feature threshold).length = 0 then 0
  else
    entropy y -
      (((leftPairs X y feature threshold).length : ℝ) / (y.length : ℝ) *
          entropy ((leftPairs X y feature threshold).map Prod.snd) +
        ((rightPairs X y feature threshold).length : ℝ) / (y.length : ℝ) *
          entropy ((rightPairs X y feature threshold).map Prod.snd))

/-- The candidate (feature, threshold) pairs of `_best_split`, in loop
order: features in ascending index order, and for each feature its distinct
observed values ascending (`np.unique`). -/
def splitCandidates (X : List (List ℚ)) : List (Nat × ℚ) :=
  (List.range (X.headD []).length).flatMap fun f =>
    (sortedDistinct (X.map fun row => row.getD f 0)).map fun t => (f, t)

/-- Accumulator of the `_best_split` scan: best feature, best threshold
(both `None` initially) and best gain (initially `-1`). -/
structure SplitAcc where
  feature : Option Nat
  threshold : Option ℚ
  gain : ℝ

/-- One step of the `_best_split` scan: record the candidate on a strict
improvement (`gain > best_gain`), ties keep the first-found candidate. -/
noncomputable def bestSplitStep (X : List (List ℚ)) (y : List Nat)
    (acc : SplitAcc) (c : Nat × ℚ) : SplitAcc :=
  if acc.gain < informationGain X y c.1 c.2 then
    ⟨some c.1, some c.2, informationGain X y c.1 c.2⟩
  else acc

/-- `_best_split`: scan all candidates tracking the maximum gain seen. -/
noncomputable def bestSplit (X : List (List ℚ)) (y : List Nat) : SplitAcc :=
  (splitCandidates X).foldl (bestSplitStep X y) ⟨none, none, -1⟩

/-- `_most_common_class`: `values[np.argmax(counts)]` over the sorted
distinct values; count ties keep the smallest value. -/
def mostCommonClass (y : List Nat) : Nat :=
  (sortedDistinct y).getD (argmaxIdx ((sortedDistinct y).map fun v => y.count v)) 0

/-- `_build_tree`.  The final catch-all arm (best feature or threshold still
`None` together with a nonzero best gain) is unreachable for the inputs the
claims quantify over; on it Python would fail on `X[:, None]`, and the
embedding emits a majority leaf. -/
noncomputable def buildTree (maxDepth minSplit minLeaf : Nat)
    (X : List (List ℚ)) (y : List Nat) (depth : Nat) : Node :=
  if h : maxDepth ≤ depth ∨ (sortedDistinct y).length = 1 ∨
      X.length < minSplit then
    Node.leaf (mostCommonClass y)
  else
    if (bestSplit X y).gain = 0 then Node.leaf (mostCommonClass y)
    else
      match (bestSplit X y).feature, (bestSplit X y).threshold with
      | some bf, some bt =>
          if (leftPairs X y bf bt).length < minLeaf ∨
              (rightPairs X y bf bt).length < minLeaf then
            Node.leaf (mostCommonClass y)
          else
            Node.inner bf bt
              (buildTree maxDepth minSplit minLeaf ((leftPairs X y bf bt).map Prod.fst)
                ((leftPairs X y bf bt).map Prod.snd) (depth + 1))
              (buildTree maxDepth minSplit minLeaf ((rightPairs X y bf bt).map Prod.fst)
                ((rightPairs X y bf bt).map Prod.snd) (depth + 1))
      | _, _ => Node.leaf (mostCommonClass y)
termination_by maxDepth - depth
decreasing_by
  all_goals (push_neg at h; omega)

/-- `DecisionTree.fit`: seeds the global generator when `random_state` is
truthy (the builder never draws from it afterwards) and builds the tree. -/
noncomputable def DecisionTree.fit (m : DecisionTree) (X : List (List ℚ))
    (y : List Nat) (r : Rng) : DecisionTree × Rng :=
  let r1 := if truthy m.random_state then npSeed (m.random_state.getD 0) r else r
  ({ m with root := some (buildTree m.max_depth m.min_samples_split m.min_samples_leaf X y 0) }, r1)

/-- `_predict_sample`: descend from a node to a leaf. -/
def predictSample (x : List ℚ) : Node → Nat
  | Node.leaf v => v
  | Node.inner f t l r => if x.getD f 0 ≤ t then predictSample x l else predictSample x r

/-- Row-wise prediction from a root node. -/
def treePredictList (root : Node) (X : List (List ℚ)) : List Nat :=
  X.map fun x => predictSample x root

/-- `DecisionTree.predict`: not-fitted error when `root` is `None`. -/
def DecisionTree.predict (m : DecisionTree) (X : List (List ℚ)) :
    Except String (List Nat) :=
  match m.root with
  | none => Except.error notFittedMsg
  | some root => Except.ok (treePredictList root X)

/- ------------------------------------------------------------------ -/
/- `random_forest.py` -/
/- ------------------------------------------------------------------ -/

/-- The `max_features` constructor argument: the strings `sqrt` and `log2`,
an explicit integer count, an explicit fraction, or anything else (e.g.
`None`), which selects all features. -/
inductive MaxFeatures where
  | sqrtMode
  | log2Mode
  | count (c : Nat)
  | frac (f : ℚ)
  | allFeatures
deriving DecidableEq

/-- State of a `RandomForest` instance: configuration plus the fitted trees
and their feature subsets (empty lists until `fit` runs). -/
structure RandomForest where
  n_estimators : Nat
  max_depth : Nat
  min_samples_split : Nat
  min_samples_leaf : Nat
  max_features : MaxFeatures
  bootstrap : Bool
  random_state : Option Int
  trees : List DecisionTree
  feature_indices : List (List Nat)

/-- `RandomForest.__init__`. -/
def RandomForest.init (nEstimators maxDepth minSamplesSplit minSamplesLeaf : Nat)
    (maxFeatures : MaxFeatures) (useBootstrap : Bool) (randomState : Option Int) :
    RandomForest :=
  ⟨nEstimators, maxDepth, minSamplesSplit, minSamplesLeaf, maxFeatures,
    useBootstrap, randomState, [], []⟩

/-- The `n_samples` index draws of `_get_bootstrap_sample`. -/
def drawIndices (n : Nat) : Nat → Rng → List Nat × Rng
  | 0, r => ([], r)
  | k + 1, r =>
      let (i, r1) := npChoice n r
      let (rest, r2) := drawIndices n k r1
      (i :: rest, r2)

/-- `_get_bootstrap_sample`: `n_samples` row indices drawn independently and
uniformly with replacement, and the corresponding rows of `X` and `y`. -/
def RandomForest.getBootstrapSample (X : List (List ℚ)) (y : List Nat) (r : Rng) :
    (List (List ℚ) × List Nat) × Rng :=
  let p := drawIndices X.length X.length r
  ((p.1.map fun i => X.getD i [], p.1.map fun i => y.getD i 0), p.2)

/-- The subset size computed by `_get_random_features`.  Python's `int(...)`
truncates toward zero: `int(np.sqrt(n))` is `Nat.sqrt n`,
`int(np.log2(n))` is `Nat.log2 n` (for `n ≥ 1`), and `int(fraction * n)` is
the floor for the nonnegative products involved — none of these round. -/
def nSelectedFeatures (mf : MaxFeatures) (nFeatures : Nat) : Nat :=
  match mf with
  | MaxFeatures.sqrtMode => Nat.sqrt nFeatures
  | MaxFeatures.log2Mode => Nat.log2 nFeatures
  | MaxFeatures.count c => min c nFeatures
  | MaxFeatures.frac f => (⌊f * (nFeatures : ℚ)⌋).toNat
  | MaxFeatures.allFeatures => nFeatures

/-- Modelled from the spec: `np.random.choice(n, k, replace=False)` draws
`k` distinct values, modelled by repeatedly drawing a position in the list
of not-yet-chosen values (numpy's internal permutation algorithm is
external to the repository; the claims use only the size, distinctness and
range of the result, and its determinism given the generator state). -/
def pickDistinct : List Nat → Nat → Rng → List Nat × Rng
  | _, 0, r => ([], r)
  | [], _ + 1, r => ([], r)
  | a :: rest, k + 1, r =>
      let (v, r1) := Rng.next r
      let p := pickDistinct ((a :: rest).eraseIdx (v % (rest.length + 1))) k r1
      ((a :: rest).getD (v % (rest.length + 1)) 0 :: p.1, p.2)

/-- `np.random.choice(n_features, n_selected, replace=False)`. -/
def npChoiceNoRep (n k : Nat) (r : Rng) : List Nat × Rng :=
  pickDistinct (List.range n) k r

/-- `_get_random_features` (with `mfm` the instance's `max_features`). -/
def RandomForest.getRandomFeatures (mfm : MaxFeatures) (nFeatures : Nat) (r : Rng) :
    List Nat × Rng :=
  npChoiceNoRep nFeatures (nSelectedFeatures mfm nFeatures) r

/-- Column selection `X[:, feature_indices]`. -/
def selectCols (X : List (List ℚ)) (idxs : List Nat) : List (List ℚ) :=
  X.map fun row => idxs.map fun i => row.getD i 0

/-- The per-tree training loop of `RandomForest.fit`: bootstrap rows (when
enabled), draw a feature subset, and train a tree on the selected rows and
columns with the per-tree derived seed (`random_state + i` when
`random_state` is truthy, else `None`). -/
noncomputable def RandomForest.fitLoop (useBootstrap : Bool) (mfm : MaxFeatures)
    (maxDepth minSplit minLeaf : Nat) (rs : Option Int) (X : List (List ℚ))
    (y : List Nat) (nFeatures : Nat) :
    Nat → Nat → Rng → (List DecisionTree × List (List Nat)) × Rng
  | 0, _, r => (([], []), r)
  | rem + 1, i, r =>
      let pb := if useBootstrap then RandomForest.getBootstrapSample X y r else ((X, y), r)
      let pf := RandomForest.getRandomFeatures mfm nFeatures pb.2
      let tcfg := DecisionTree.init maxDepth minSplit minLeaf
        (if truthy rs then some (rs.getD 0 + i) else none)
      let pt := DecisionTree.fit tcfg (selectCols pb.1.1 pf.1) pb.1.2 pf.2
      let rest := RandomForest.fitLoop useBootstrap mfm maxDepth minSplit minLeaf rs X y nFeatures rem (i + 1) pt.2
      ((pt.1 :: rest.1.1, pf.1 :: rest.1.2), rest.2)

/-- `RandomForest.fit`: seed when `random_state` is truthy, then train
`n_estimators` trees in insertion order. -/
noncomputable def RandomForest.fit (m : RandomForest) (X : List (List ℚ))
    (y : List Nat) (r : Rng) : RandomForest × Rng :=
  let r1 := if truthy m.random_state then npSeed (m.random_state.getD 0) r else r
  let res := RandomForest.fitLoop m.bootstrap m.max_features m.max_depth
    m.min_samples_split m.min_samples_leaf m.random_state X y
    (X.headD []).length m.n_estimators 0 r1
  ({ m with trees := res.1.1, feature_indices := res.1.2 }, res.2)

/-- The per-tree prediction lists of `RandomForest.predict`: each tree
predicts on its own stored feature subset of `X`.  A fitted tree always has
a root; the `none` arm mirrors the (unreachable for fitted forests) Python
error path. -/
def treePredictions (trees : List DecisionTree) (featIdx : List (List Nat))
    (X : List (List ℚ)) : List (List Nat) :=
  (trees.zip featIdx).map fun p =>
    match p.1.root with
    | some root => treePredictList root (selectCols X p.2)
    | none => []

/-- `RandomForest.predict`: not-fitted error when there are no trees,
otherwise a per-sample plurality vote; the inlined vote
(`np.unique` + `np.argmax` over counts) is exactly `mostCommonClass`. -/
def RandomForest.predict (m : RandomForest) (X : List (List ℚ)) :
    Except String (List Nat) :=
  if m.trees = [] then Except.error notFittedMsg
  else
    Except.ok ((List.range X.length).map fun j =>
      mostCommonClass
        ((treePredictions m.trees m.feature_indices X).map fun preds => preds.getD j 0))

/- ------------------------------------------------------------------ -/
/- Helper lemmas -/
/- ------------------------------------------------------------------ -/

/-- `getD` does not depend on the default at indices inside the list. -/
theorem getD_stable {α : Type} (l : List α) (n : Nat) (d1 d2 : α)
    (h : n < l.length) : l.getD n d1 = l.getD n d2 := by
  rw [List.getD_eq_getElem l d1 h, List.getD_eq_getElem l d2 h]

/-- `getD` commutes with `map` at indices inside the list. -/
theorem getD_map_of_lt {α β : Type} (f : α → β) (l : List α) (n : Nat) (d : α)
    (d2 : β) (h : n < l.length) : (l.map f).getD n d2 = f (l.getD n d) := by
  rw [List.getD_eq_getElem _ _ (by simpa using h), List.getD_eq_getElem _ _ h]
  simp

/-- A `getD` value at an index inside the list is a member of the list. -/
theorem getD_mem_of_lt {α : Type} (l : List α) (n : Nat) (d : α)
    (h : n < l.length) : l.getD n d ∈ l := by
  rw [List.getD_eq_getElem _ _ h]; exact List.getElem_mem h

/-- Reading a mapped range at an index below the bound. -/
theorem getD_range_map {β : Type} (f : Nat → β) (k i : Nat) (d : β) (h : i < k) :
    ((List.range k).map f).getD i d = f i := by
  rw [getD_map_of_lt f _ i 0 d (by simpa using h)]
  congr 1
  rw [List.getD_eq_getElem _ _ (by simpa using h)]
  simp

/-- The first-argmin index is inside a nonempty list. -/
theorem argminIdx_lt_length {α : Type} [LinearOrder α] :
    ∀ (l : List α), l ≠ [] → argminIdx l < l.length
  | [_], _ => by simp [argminIdx]
  | a :: b :: rest, _ => by
      have ih := argminIdx_lt_length (b :: rest) (by simp)
      simp only [argminIdx]
      split
      · simp
      · simpa using Nat.succ_lt_succ ih

/-- The list value at the first-argmin index is minimal. -/
theorem argminIdx_getD_le {α : Type} [LinearOrder α] (d : α) :
    ∀ (l : List α) (i : Nat), i < l.length → l.getD (argminIdx l) d ≤ l.getD i d
  | [a], i, hi => by
      have : i = 0 := by simpa using Nat.lt_one_iff.mp (by simpa using hi)
      subst this
      simp [argminIdx]
  | a :: b :: rest, i, hi => by
      have hlt := argminIdx_lt_length (b :: rest) (by simp)
      have hdd : (b :: rest).getD (argminIdx (b :: rest)) b =
          (b :: rest).getD (argminIdx (b :: rest)) d := getD_stable _ _ _ _ hlt
      by_cases hc : a ≤ (b :: rest).getD (argminIdx (b :: rest)) b
      · simp only [argminIdx, if_pos hc]
        cases i with
        | zero => simp
        | succ i2 =>
            have hi2 : i2 < (b :: rest).length := by simpa using hi
            have step := argminIdx_getD_le d (b :: rest) i2 hi2
            calc (a :: b :: rest).getD 0 d = a := by simp
              _ ≤ (b :: rest).getD (argminIdx (b :: rest)) d := hdd ▸ hc
              _ ≤ (b :: rest).getD i2 d := step
              _ = (a :: b :: rest).getD (i2 + 1) d := by simp
      · simp only [argminIdx, if_neg hc]
        push_neg at hc
        cases i with
        | zero =>
            have : (a :: b :: rest).getD (argminIdx (b :: rest) + 1) d =
                (b :: rest).getD (argminIdx (b :: rest)) d := by simp
            rw [this, ← hdd]
            simpa using le_of_lt hc
        | succ i2 =>
            have hi2 : i2 < (b :: rest).length := by simpa using hi
            have step := argminIdx_getD_le d (b :: rest) i2 hi2
            simpa using step

/-- The embedding of `_calculate_distance`/`_assign_clusters` drops the
`np.sqrt`: this is sound because the first-argmin of a list of nonnegative
values is unchanged by the strictly monotone `sqrt`. -/
theorem argminIdx_map_sqrt :
    ∀ (l : List ℚ), (∀ q ∈ l, (0 : ℚ) ≤ q) →
      argminIdx (l.map fun q : ℚ => Real.sqrt (q : ℝ)) = argminIdx l
  | [], _ => rfl
  | [_], _ => by simp [argminIdx]
  | a :: b :: rest, h => by
      have ih := argminIdx_map_sqrt (b :: rest) (fun q hq => h q (by simp [hq]))
      have hlt := argminIdx_lt_length (b :: rest) (by simp)
      have hmem : (b :: rest).getD (argminIdx (b :: rest)) b ∈ b :: rest :=
        getD_mem_of_lt _ _ _ hlt
      have h0 : (0 : ℚ) ≤ (b :: rest).getD (argminIdx (b :: rest)) b :=
        h _ (List.mem_cons_of_mem a hmem)
      have hgd : (((b :: rest).map fun q : ℚ => Real.sqrt (q : ℝ)).getD
            (argminIdx (b :: rest)) (Real.sqrt (b : ℝ))) =
          Real.sqrt (((b :: rest).getD (argminIdx (b :: rest)) b : ℚ) : ℝ) :=
        getD_map_of_lt (fun q : ℚ => Real.sqrt (q : ℝ)) _ _ b _ hlt
      have hiff : (Real.sqrt (a : ℝ) ≤
            Real.sqrt (((b :: rest).getD (argminIdx (b :: rest)) b : ℚ) : ℝ)) ↔
          (a ≤ (b :: rest).getD (argminIdx (b :: rest)) b) := by
        rw [Real.sqrt_le_sqrt_iff (by exact_mod_cast h0)]
        exact_mod_cast Iff.rfl
      show argminIdx (Real.sqrt (a : ℝ) :: Real.sqrt (b : ℝ) ::
          rest.map fun q : ℚ => Real.sqrt (q : ℝ)) = argminIdx (a :: b :: rest)
      rw [argminIdx, argminIdx]
      have hmc : (Real.sqrt (b : ℝ) :: rest.map fun q : ℚ => Real.sqrt (q : ℝ)) =
          (b :: rest).map fun q : ℚ => Real.sqrt (q : ℝ) := rfl
      rw [hmc, ih, hgd]
      by_cases hle : a ≤ (b :: rest).getD (argminIdx (b :: rest)) b
      · rw [if_pos (hiff.mpr hle), if_pos hle]
      · rw [if_neg (fun hcontra => hle (hiff.mp hcontra)), if_neg hle]

/- ------------------------------------------------------------------ -/
/- C1: empty clusters in the centroid update -/
/- ------------------------------------------------------------------ -/

/-- C1 counterexample.  In the run of `fit` on `X = [[1],[2]]` with two
clusters whose initial centroids are both `[1]` (duplicate draws), the
first assignment is `[0,0]`, so cluster `1` has no assigned samples — and
the update step sets its centroid to the zero vector `[0]`, not to its
previous value `[1]`: the centroid at index 1 after the update differs from
the centroid at index 1 before the update. -/
theorem kmeans_empty_cluster_counterexample :
    clusterPoints [[(1 : ℚ)], [2]] [0, 0] 1 = [] ∧
    (KMeans.initCentroids (KMeans.init 2 1 none) [[(1 : ℚ)], [2]]
        ⟨fun _ => 0, 0⟩).1 = [[(1 : ℚ)], [1]] ∧
    KMeans.assignClusters
        (KMeans.calculateDistance [[(1 : ℚ)], [2]] [[(1 : ℚ)], [1]]) = [0, 0] ∧
    KMeans.updateCentroids 2 [[(1 : ℚ)], [2]] [0, 0] =
        [[(3 / 2 : ℚ)], [0]] ∧
    (KMeans.updateCentroids 2 [[(1 : ℚ)], [2]] [0, 0]).getD 1 [] ≠
      (KMeans.initCentroids (KMeans.init 2 1 none) [[(1 : ℚ)], [2]]
        ⟨fun _ => 0, 0⟩).1.getD 1 [] ∧
    ((KMeans.fit (KMeans.init 2 1 none) [[(1 : ℚ)], [2]] ⟨fun _ => 0, 0⟩).1).centroids =
      some [[(3 / 2 : ℚ)], [0]] := by
  refine ⟨?_, ?_, ?_, ?_, ?_, ?_⟩ <;>
    norm_num [clusterPoints, KMeans.initCentroids, KMeans.init, truthy,
      KMeans.drawRows, npChoice, Rng.next, KMeans.assignClusters,
      KMeans.calculateDistance, sqDist, argminIdx, KMeans.updateCentroids,
      vecMean, List.range_succ, KMeans.fit, KMeans.fitLoop]

/-- C1 amended: a centroid whose cluster has zero assigned samples is not
kept at its previous value — `_update_centroids` rebuilds the centroid
matrix from `np.zeros`, so such a centroid is set to the zero vector. -/
theorem kmeans_empty_cluster_zeroed (k : Nat) (X : List (List ℚ))
    (labels : List Nat) (i : Nat) (hi : i < k)
    (hempty : clusterPoints X labels i = []) :
    (KMeans.updateCentroids k X labels).getD i [] =
      List.replicate (X.headD []).length 0 := by
  unfold KMeans.updateCentroids
  rw [getD_range_map _ _ _ _ hi]
  simp [hempty]

/-- C1 amended, witness: the hypotheses and conclusion instantiated at the
concrete run of the counterexample. -/
theorem kmeans_empty_cluster_zeroed_witness :
    (1 < 2 ∧ clusterPoints [[(1 : ℚ)], [2]] [0, 0] 1 = []) ∧
    (KMeans.updateCentroids 2 [[(1 : ℚ)], [2]] [0, 0]).getD 1 [] =
      List.replicate ([[(1 : ℚ)], [2]].headD []).length 0 :=
  have h1 : 1 < 2 := by norm_num
  have h2 : clusterPoints [[(1 : ℚ)], [2]] [0, 0] 1 = [] := by norm_num [clusterPoints]
  ⟨⟨h1, h2⟩, kmeans_empty_cluster_zeroed 2 _ _ _ h1 h2⟩

/- ------------------------------------------------------------------ -/
/- C2: the convergence exit of the fit loop -/
/- ------------------------------------------------------------------ -/

/-- C2: whenever the `fit` loop exits by convergence it does so at some
`t > 0`, and it returns the state it was entered with — the stored
assignment is not overwritten and centroids are not recomputed — so the
final stored assignment equals the first-argmin nearest-centroid assignment
of `X` under the final stored centroids. -/
theorem kmeans_convergence_consistent (k : Nat) (X : List (List ℚ)) :
    ∀ (fuel t : Nat) (s sfin : KMState) (tconv : Nat),
      KMeans.fitLoop k X fuel t s = (sfin, KMExit.converged tconv) →
      0 < tconv ∧
        sfin.labels =
          some (KMeans.assignClusters (KMeans.calculateDistance X sfin.centroids)) := by
  intro fuel
  induction fuel with
  | zero => intro t s sfin tconv h; simp [KMeans.fitLoop] at h
  | succ fuel ih =>
      intro t s sfin tconv h
      rw [KMeans.fitLoop] at h
      split_ifs at h with hc
      · rw [Prod.mk.injEq] at h
        obtain ⟨rfl, hexit⟩ := h
        cases hexit
        exact ⟨hc.1, hc.2⟩
      · exact ih _ _ _ _ h

/-- C2 witness: a concrete run on `X = [[0],[10]]` with two clusters that
exits by convergence at iteration 1, together with the conclusion of
`kmeans_convergence_consistent` for it. -/
theorem kmeans_convergence_consistent_witness :
    KMeans.fitLoop 2 [[(0 : ℚ)], [10]] 3 0
        ⟨[[(0 : ℚ)], [10]], none⟩ =
      (⟨[[(0 : ℚ)], [10]], some [0, 1]⟩, KMExit.converged 1) ∧
    (0 < 1 ∧
      (KMState.mk [[(0 : ℚ)], [10]] (some [0, 1])).labels =
        some (KMeans.assignClusters
          (KMeans.calculateDistance [[(0 : ℚ)], [10]]
            (KMState.mk [[(0 : ℚ)], [10]] (some [0, 1])).centroids))) :=
  have heq : KMeans.fitLoop 2 [[(0 : ℚ)], [10]] 3 0
      ⟨[[(0 : ℚ)], [10]], none⟩ =
      (⟨[[(0 : ℚ)], [10]], some [0, 1]⟩, KMExit.converged 1) := by
    norm_num [KMeans.fitLoop, KMeans.assignClusters, KMeans.calculateDistance,
      sqDist, argminIdx, KMeans.updateCentroids, clusterPoints, vecMean,
      List.range_succ]
  ⟨heq, kmeans_convergence_consistent _ _ _ _ _ _ _ heq⟩

/- ------------------------------------------------------------------ -/
/- C3: two-run determinism of fit -/
/- ------------------------------------------------------------------ -/

/-- C3 counterexample.  The claim quantifies over every supplied seed, but
`random_state = 0` is falsy in `if self.random_state:`, so the generator is
never seeded and two consecutive `fit` calls on the same instance with the
same arguments can return different cluster assignments: on
`X = [[0],[10]]` with two clusters, seed `0` and the given generator
stream, the first fit stores labels `[1,0]` and the immediately following
refit stores `[0,1]`. -/
theorem kmeans_seed_zero_two_fits_differ :
    ((KMeans.fit (KMeans.init 2 2 (some 0)) [[(0 : ℚ)], [10]]
        ⟨fun i => if i < 2 then 0 else i, 0⟩).1).labels = some [1, 0] ∧
    ((KMeans.fit
        ((KMeans.fit (KMeans.init 2 2 (some 0)) [[(0 : ℚ)], [10]]
            ⟨fun i => if i < 2 then 0 else i, 0⟩).1)
        [[(0 : ℚ)], [10]]
        ((KMeans.fit (KMeans.init 2 2 (some 0)) [[(0 : ℚ)], [10]]
            ⟨fun i => if i < 2 then 0 else i, 0⟩).2)).1).labels = some [0, 1] := by
  constructor <;>
    norm_num [KMeans.fit, KMeans.initCentroids, KMeans.init, truthy,
      KMeans.drawRows, npChoice, Rng.next, KMeans.fitLoop, KMeans.assignClusters,
      KMeans.calculateDistance, sqDist, argminIdx, KMeans.updateCentroids,
      clusterPoints, vecMean, List.range_succ]

/-- C3 amended: for every truthy seed (any integer except `0`), `fit` with
the same arguments yields identical results regardless of the incoming
generator state — in particular two consecutive calls agree: the fitted
tree, the fitted forest (hence its predictions), and the fitted clustering
state are determined by the arguments alone. -/
theorem fit_deterministic_when_seeded
    (mt : DecisionTree) (mf : RandomForest) (mk : KMeans)
    (ht : truthy mt.random_state = true) (hf : truthy mf.random_state = true)
    (hk : truthy mk.random_state = true)
    (X : List (List ℚ)) (y : List Nat) (r1 r2 : Rng) :
    (DecisionTree.fit mt X y r1).1 = (DecisionTree.fit mt X y r2).1 ∧
    (RandomForest.fit mf X y r1).1 = (RandomForest.fit mf X y r2).1 ∧
    (KMeans.fit mk X r1).1 = (KMeans.fit mk X r2).1 := by
  refine ⟨?_, ?_, ?_⟩
  · simp [DecisionTree.fit]
  · simp [RandomForest.fit, hf, npSeed]
  · simp [KMeans.fit, KMeans.initCentroids, hk, npSeed]

/-- C3 amended, witness: concrete seeded instances of all three components
fitted from two different generator states. -/
theorem fit_deterministic_when_seeded_witness :
    (truthy (DecisionTree.init 3 2 1 (some 42)).random_state = true ∧
      truthy (RandomForest.init 1 3 2 1 MaxFeatures.sqrtMode true (some 7)).random_state = true ∧
      truthy (KMeans.init 2 3 (some 5)).random_state = true) ∧
    ((DecisionTree.fit (DecisionTree.init 3 2 1 (some 42)) [[(1 : ℚ)], [2]] [0, 1]
          ⟨fun _ => 0, 0⟩).1 =
        (DecisionTree.fit (DecisionTree.init 3 2 1 (some 42)) [[(1 : ℚ)], [2]] [0, 1]
          ⟨fun i => i + 1, 5⟩).1 ∧
      (RandomForest.fit (RandomForest.init 1 3 2 1 MaxFeatures.sqrtMode true (some 7))
          [[(1 : ℚ)], [2]] [0, 1] ⟨fun _ => 0, 0⟩).1 =
        (RandomForest.fit (RandomForest.init 1 3 2 1 MaxFeatures.sqrtMode true (some 7))
          [[(1 : ℚ)], [2]] [0, 1] ⟨fun i => i + 1, 5⟩).1 ∧
      (KMeans.fit (KMeans.init 2 3 (some 5)) [[(1 : ℚ)], [2]] ⟨fun _ => 0, 0⟩).1 =
        (KMeans.fit (KMeans.init 2 3 (some 5)) [[(1 : ℚ)], [2]] ⟨fun i => i + 1, 5⟩).1) :=
  have h1 : truthy (DecisionTree.init 3 2 1 (some 42)).random_state = true := by decide
  have h2 : truthy (RandomForest.init 1 3 2 1 MaxFeatures.sqrtMode true (some 7)).random_state
      = true := by decide
  have h3 : truthy (KMeans.init 2 3 (some 5)).random_state = true := by decide
  ⟨⟨h1, h2, h3⟩,
    fit_deterministic_when_seeded _ _ _ h1 h2 h3 [[(1 : ℚ)], [2]] [0, 1]
      ⟨fun _ => 0, 0⟩ ⟨fun i => i + 1, 5⟩⟩

/- ------------------------------------------------------------------ -/
/- C4: predict before fit -/
/- ------------------------------------------------------------------ -/

/-- C4: for every configuration and every input, `predict` on a freshly
constructed (never fitted) instance of each of the three components fails
with the not-fitted error, returning no partial result. -/
theorem predict_before_fit_not_fitted
    (td ts tl : Nat) (trs : Option Int)
    (fe fd fs fl : Nat) (fm : MaxFeatures) (fb : Bool) (frs : Option Int)
    (kc ki : Nat) (krs : Option Int) (X : List (List ℚ)) :
    DecisionTree.predict (DecisionTree.init td ts tl trs) X =
        Except.error notFittedMsg ∧
    RandomForest.predict (RandomForest.init fe fd fs fl fm fb frs) X =
        Except.error notFittedMsg ∧
    KMeans.predict (KMeans.init kc ki krs) X = Except.error notFittedMsg :=
  ⟨rfl, rfl, rfl⟩

/- ------------------------------------------------------------------ -/
/- C10: seed 0 behaves as unseeded -/
/- ------------------------------------------------------------------ -/

/-- The forest training loop does not distinguish `random_state = 0` from
`random_state = None`: both are falsy, so the per-tree seed is `None`. -/
theorem forest_fitLoop_seed_zero (bs : Bool) (mfm : MaxFeatures)
    (a b c : Nat) (X : List (List ℚ)) (y : List Nat) :
    ∀ (rem : Nat), ∀ (nf i : Nat) (r : Rng),
      RandomForest.fitLoop bs mfm a b c (some 0) X y nf rem i r =
        RandomForest.fitLoop bs mfm a b c none X y nf rem i r := by
  intro rem
  induction rem with
  | zero => intro nf i r; rfl
  | succ rem ih =>
      intro nf i r
      simp only [RandomForest.fitLoop, truthy]
      norm_num
      rw [ih]
      exact ⟨⟨rfl, rfl⟩, rfl⟩

/-- Every tree fitted by the loop with a falsy `random_state` stores
`random_state = None` (the derived per-tree seed is not applied). -/
theorem forest_fitLoop_trees_unseeded (bs : Bool) (mfm : MaxFeatures)
    (a b c : Nat) (X : List (List ℚ)) (y : List Nat) :
    ∀ (rem : Nat), ∀ (nf i : Nat) (r : Rng),
      ∀ t ∈ (RandomForest.fitLoop bs mfm a b c none X y nf rem i r).1.1,
        t.random_state = none := by
  intro rem
  induction rem with
  | zero => intro nf i r t ht; simp [RandomForest.fitLoop] at ht
  | succ rem ih =>
      intro nf i r t ht
      simp only [RandomForest.fitLoop, truthy] at ht
      rcases List.mem_cons.mp ht with rfl | hmem
      · rfl
      · exact ih _ _ _ _ hmem

/-- C10: with `random_state = 0`, all three components behave exactly as
with no seed (the generator is never seeded; the forest's per-tree derived
seed is not applied and every fitted tree carries `random_state = None`),
and consequently seed `0` lacks the reproducibility of truthy seeds: there
is an input on which two consecutive seed-`0` cluster fits disagree. -/
theorem seed_zero_behaves_as_unseeded
    (mt : DecisionTree) (mf : RandomForest) (mk : KMeans)
    (X : List (List ℚ)) (y : List Nat) (r : Rng) :
    ((DecisionTree.fit { mt with random_state := some 0 } X y r).1.root =
        (DecisionTree.fit { mt with random_state := none } X y r).1.root ∧
      (DecisionTree.fit { mt with random_state := some 0 } X y r).2 =
        (DecisionTree.fit { mt with random_state := none } X y r).2) ∧
    ((RandomForest.fit { mf with random_state := some 0 } X y r).1.trees =
        (RandomForest.fit { mf with random_state := none } X y r).1.trees ∧
      (RandomForest.fit { mf with random_state := some 0 } X y r).1.feature_indices =
        (RandomForest.fit { mf with random_state := none } X y r).1.feature_indices ∧
      (RandomForest.fit { mf with random_state := some 0 } X y r).2 =
        (RandomForest.fit { mf with random_state := none } X y r).2 ∧
      ∀ t ∈ (RandomForest.fit { mf with random_state := some 0 } X y r).1.trees,
        t.random_state = none) ∧
    ((KMeans.fit { mk with random_state := some 0 } X r).1.centroids =
        (KMeans.fit { mk with random_state := none } X r).1.centroids ∧
      (KMeans.fit { mk with random_state := some 0 } X r).1.labels =
        (KMeans.fit { mk with random_state := none } X r).1.labels ∧
      (KMeans.fit { mk with random_state := some 0 } X r).1.inertia =
        (KMeans.fit { mk with random_state := none } X r).1.inertia ∧
      (KMeans.fit { mk with random_state := some 0 } X r).2 =
        (KMeans.fit { mk with random_state := none } X r).2) ∧
    (∃ (X0 : List (List ℚ)) (r0 : Rng),
      ((KMeans.fit (KMeans.init 2 2 (some 0)) X0 r0).1).labels ≠
        ((KMeans.fit ((KMeans.fit (KMeans.init 2 2 (some 0)) X0 r0).1) X0
            ((KMeans.fit (KMeans.init 2 2 (some 0)) X0 r0).2)).1).labels) := by
  have hloop := forest_fitLoop_seed_zero mf.bootstrap mf.max_features mf.max_depth
    mf.min_samples_split mf.min_samples_leaf X y
  refine ⟨⟨?_, ?_⟩, ⟨?_, ?_, ?_, ?_⟩, ⟨?_, ?_, ?_, ?_⟩, ?_⟩
  · simp [DecisionTree.fit, truthy]
  · simp [DecisionTree.fit, truthy]
  · simp [RandomForest.fit, truthy, hloop]
  · simp [RandomForest.fit, truthy, hloop]
  · simp [RandomForest.fit, truthy, hloop]
  · intro t ht
    simp only [RandomForest.fit, truthy] at ht
    norm_num at ht
    rw [hloop] at ht
    exact forest_fitLoop_trees_unseeded _ _ _ _ _ _ _ _ _ _ _ t ht
  · simp [KMeans.fit, KMeans.initCentroids, truthy]
  · simp [KMeans.fit, KMeans.initCentroids, truthy]
  · simp [KMeans.fit, KMeans.initCentroids, truthy]
  · simp [KMeans.fit, KMeans.initCentroids, truthy]
  · refine ⟨[[(0 : ℚ)], [10]], ⟨fun i => if i < 2 then 0 else i, 0⟩, ?_⟩
    have hlabels :
        ((KMeans.fit (KMeans.init 2 2 (some 0)) [[(0 : ℚ)], [10]]
            ⟨fun i => if i < 2 then 0 else i, 0⟩).1).labels = some [1, 0] ∧
        ((KMeans.fit
            ((KMeans.fit (KMeans.init 2 2 (some 0)) [[(0 : ℚ)], [10]]
                ⟨fun i => if i < 2 then 0 else i, 0⟩).1)
            [[(0 : ℚ)], [10]]
            ((KMeans.fit (KMeans.init 2 2 (some 0)) [[(0 : ℚ)], [10]]
                ⟨fun i => if i < 2 then 0 else i, 0⟩).2)).1).labels = some [0, 1] := by
      constructor <;>
        norm_num [KMeans.fit, KMeans.initCentroids, KMeans.init, truthy,
          KMeans.drawRows, npChoice, Rng.next, KMeans.fitLoop, KMeans.assignClusters,
          KMeans.calculateDistance, sqDist, argminIdx, KMeans.updateCentroids,
          clusterPoints, vecMean, List.range_succ]
    rw [hlabels.1, hlabels.2]
    simp

/- ------------------------------------------------------------------ -/
/- C5: the entropy scenario values -/
/- ------------------------------------------------------------------ -/

/-- Closed form of the entropy of `[0,0,1,1]`: because of the `1e-8` inside
the log it is `1 - log2(1 + 2e-8)`, not exactly `1`. -/
theorem entropy_0011_eq : entropy [0, 0, 1, 1] = 1 - Real.logb 2 (1 + 2e-8) := by
  have hsd : sortedDistinct [0, 0, 1, 1] = [0, 1] := by decide
  have hc0 : ([0, 0, 1, 1] : List Nat).count 0 = 2 := by decide
  have hc1 : ([0, 0, 1, 1] : List Nat).count 1 = 2 := by decide
  rw [entropy, hsd]
  simp only [List.map_cons, List.map_nil, List.sum_cons, List.sum_nil, hc0, hc1,
    List.length_cons, List.length_nil]
  norm_num
  have hhalf : (50000001 / 100000000 : ℝ) = (50000001 / 50000000) / 2 := by norm_num
  rw [hhalf, Real.logb_div (by norm_num) (by norm_num),
    Real.logb_self_eq_one (by norm_num)]
  ring

/-- Closed form of the entropy of `[0,0,0,0]`: `-log2(1 + 1e-8)`, not `0`. -/
theorem entropy_0000_eq : entropy [0, 0, 0, 0] = -Real.logb 2 (1 + 1e-8) := by
  have hsd : sortedDistinct [0, 0, 0, 0] = [0] := by decide
  have hc0 : ([0, 0, 0, 0] : List Nat).count 0 = 4 := by decide
  rw [entropy, hsd]
  simp only [List.map_cons, List.map_nil, List.sum_cons, List.sum_nil, hc0,
    List.length_cons, List.length_nil]
  norm_num

/-- For `0 < c ≤ 2e-8`, `log2(1 + c)` is strictly between `0` and `1e-7`. -/
theorem logb_one_add_small (c : ℝ) (h0 : 0 < c) (h2 : c ≤ 2e-8) :
    0 < Real.logb 2 (1 + c) ∧ Real.logb 2 (1 + c) < 1e-7 := by
  constructor
  · exact Real.logb_pos one_lt_two (by linarith)
  · have hlog : Real.log (1 + c) ≤ c := by
      have := Real.log_le_sub_one_of_pos (x := 1 + c) (by linarith)
      linarith
    have h2pos : (0 : ℝ) < Real.log 2 := Real.log_pos one_lt_two
    have hd9 : (0.6931471803 : ℝ) < Real.log 2 := Real.log_two_gt_d9
    rw [← Real.log_div_log, div_lt_iff₀ h2pos]
    nlinarith

/-- C5 counterexample: neither claimed exact equality holds — the small
constant added inside the log shifts both entropy values. -/
theorem entropy_scenario_not_exact :
    entropy [0, 0, 1, 1] ≠ 1 ∧ entropy [0, 0, 0, 0] ≠ 0 := by
  have hb1 := logb_one_add_small (2e-8) (by norm_num) (by norm_num)
  have hb2 := logb_one_add_small (1e-8) (by norm_num) (by norm_num)
  constructor
  · rw [entropy_0011_eq]
    intro hcontra
    have := hb1.1
    linarith
  · rw [entropy_0000_eq]
    intro hcontra
    have := hb2.1
    linarith

/-- C5 amended: the entropy of `[0,0,1,1]` equals `1 - log2(1 + 2e-8)`,
strictly below `1` but within `1e-7` of it, and the entropy of `[0,0,0,0]`
equals `-log2(1 + 1e-8)`, strictly below `0` but within `1e-7` of it. -/
theorem entropy_scenario_approx :
    (entropy [0, 0, 1, 1] = 1 - Real.logb 2 (1 + 2e-8) ∧
      1 - 1e-7 < entropy [0, 0, 1, 1] ∧ entropy [0, 0, 1, 1] < 1) ∧
    (entropy [0, 0, 0, 0] = -Real.logb 2 (1 + 1e-8) ∧
      -1e-7 < entropy [0, 0, 0, 0] ∧ entropy [0, 0, 0, 0] < 0) := by
  have hb1 := logb_one_add_small (2e-8) (by norm_num) (by norm_num)
  have hb2 := logb_one_add_small (1e-8) (by norm_num) (by norm_num)
  refine ⟨⟨entropy_0011_eq, ?_, ?_⟩, ⟨entropy_0000_eq, ?_, ?_⟩⟩
  · rw [entropy_0011_eq]; linarith [hb1.2]
  · rw [entropy_0011_eq]; linarith [hb1.1]
  · rw [entropy_0000_eq]; linarith [hb2.2]
  · rw [entropy_0000_eq]; linarith [hb2.1]

/- ------------------------------------------------------------------ -/
/- Machinery for evaluating `_best_split` -/
/- ------------------------------------------------------------------ -/

/-- A scan step never updates when the candidate's gain does not strictly
exceed the accumulator's. -/
theorem foldl_bestSplitStep_stable (X : List (List ℚ)) (y : List Nat) :
    ∀ (l : List (Nat × ℚ)) (acc : SplitAcc),
      (∀ c ∈ l, informationGain X y c.1 c.2 ≤ acc.gain) →
      l.foldl (bestSplitStep X y) acc = acc := by
  intro l
  induction l with
  | nil => intro acc _; rfl
  | cons c t ih =>
      intro acc hall
      rw [List.foldl_cons, bestSplitStep, if_neg (not_lt.mpr (hall c (by simp)))]
      exact ih acc fun c2 h2 => hall c2 (by simp [h2])

/-- The scan result is either the initial accumulator or the record of one
of the scanned candidates. -/
theorem foldl_bestSplitStep_cases (X : List (List ℚ)) (y : List Nat) :
    ∀ (l : List (Nat × ℚ)) (acc : SplitAcc),
      l.foldl (bestSplitStep X y) acc = acc ∨
        ∃ c ∈ l, l.foldl (bestSplitStep X y) acc =
          ⟨some c.1, some c.2, informationGain X y c.1 c.2⟩ := by
  intro l
  induction l with
  | nil => intro acc; left; rfl
  | cons c t ih =>
      intro acc
      rw [List.foldl_cons, bestSplitStep]
      split_ifs with hlt
      · rcases ih ⟨some c.1, some c.2, informationGain X y c.1 c.2⟩ with heq | ⟨c2, hc2, heq⟩
        · right; exact ⟨c, by simp, heq⟩
        · right; exact ⟨c2, by simp [hc2], heq⟩
      · rcases ih acc with heq | ⟨c2, hc2, heq⟩
        · left; exact heq
        · right; exact ⟨c2, by simp [hc2], heq⟩

/-- `_best_split` returns the candidate `c` whenever every earlier
candidate has strictly smaller gain, every later candidate has no larger
gain, and `c`'s gain beats the initial `-1` (first-found tie-break). -/
theorem bestSplit_eq_argmax (X : List (List ℚ)) (y : List Nat)
    (l1 l2 : List (Nat × ℚ)) (c : Nat × ℚ)
    (hsplit : splitCandidates X = l1 ++ c :: l2)
    (hinit : (-1 : ℝ) < informationGain X y c.1 c.2)
    (hbefore : ∀ c2 ∈ l1, informationGain X y c2.1 c2.2 < informationGain X y c.1 c.2)
    (hafter : ∀ c2 ∈ l2, informationGain X y c2.1 c2.2 ≤ informationGain X y c.1 c.2) :
    bestSplit X y = ⟨some c.1, some c.2, informationGain X y c.1 c.2⟩ := by
  rw [bestSplit, hsplit, List.foldl_append]
  have hacc : (l1.foldl (bestSplitStep X y) ⟨none, none, -1⟩).gain <
      informationGain X y c.1 c.2 := by
    rcases foldl_bestSplitStep_cases X y l1 ⟨none, none, -1⟩ with heq | ⟨c2, hc2, heq⟩
    · rw [heq]; exact hinit
    · rw [heq]; exact hbefore c2 hc2
  rw [List.foldl_cons, bestSplitStep, if_pos hacc]
  exact foldl_bestSplitStep_stable X y l2 _ (by intro c2 h2; exact hafter c2 h2)

/-- `_information_gain` in the non-degenerate case, with the two filtered
sides given explicitly. -/
theorem informationGain_eval (X : List (List ℚ)) (y : List Nat) (f : Nat) (t : ℚ)
    (L R : List (List ℚ × Nat))
    (hL : leftPairs X y f t = L) (hR : rightPairs X y f t = R)
    (hLne : L ≠ []) (hRne : R ≠ []) :
    informationGain X y f t =
      entropy y - ((L.length : ℝ) / (y.length : ℝ) * entropy (L.map Prod.snd) +
        (R.length : ℝ) / (y.length : ℝ) * entropy (R.map Prod.snd)) := by
  rw [informationGain, hL, hR,
    if_neg (by simp [List.length_eq_zero, hLne, hRne])]

/-- `_information_gain` is `0` when the right side of the split is empty. -/
theorem informationGain_zero_of_right_empty (X : List (List ℚ)) (y : List Nat)
    (f : Nat) (t : ℚ) (hR : rightPairs X y f t = []) :
    informationGain X y f t = 0 := by
  rw [informationGain, hR]
  simp

/- ------------------------------------------------------------------ -/
/- Entropy sign lemmas -/
/- ------------------------------------------------------------------ -/

/-- `dedup` of a nonempty constant list is the singleton. -/
theorem dedup_const (v : Nat) : ∀ (y : List Nat), y ≠ [] → (∀ u ∈ y, u = v) →
    y.dedup = [v]
  | [a], _, hall => by
      have ha : a = v := hall a (by simp)
      subst ha; simp
  | a :: b :: t, _, hall => by
      have ha : a = v := hall a (by simp)
      have hb : b = v := hall b (by simp)
      have ih := dedup_const v (b :: t) (by simp)
        (fun u hu => hall u (List.mem_cons_of_mem a hu))
      rw [hb] at ih
      rw [ha, hb]
      rw [List.dedup_cons_of_mem (List.mem_cons_self v t)]
      exact ih

/-- `np.unique` of a nonempty constant list is the singleton. -/
theorem sortedDistinct_const (v : Nat) (y : List Nat) (hne : y ≠ [])
    (hall : ∀ u ∈ y, u = v) : sortedDistinct y = [v] := by
  rw [sortedDistinct, dedup_const v y hne hall]
  rfl

/-- The entropy of a nonempty single-class list is `-log2(1 + 1e-8)`
(slightly negative, because of the constant inside the log). -/
theorem entropy_pure (y : List Nat) (v : Nat) (hne : y ≠ [])
    (hall : ∀ u ∈ y, u = v) : entropy y = -Real.logb 2 (1 + 1e-8) := by
  have hsd := sortedDistinct_const v y hne hall
  have hcount : y.count v = y.length := by
    rw [List.count_eq_length]
    intro b hb
    simp [hall b hb]
  have hlen : ((y.length : ℝ)) ≠ 0 := by
    have := List.length_pos.mpr hne
    positivity
  rw [entropy, hsd]
  simp only [List.map_cons, List.map_nil, List.sum_cons, List.sum_nil, hcount]
  rw [div_self hlen]
  ring

/-- The entropy of a two-class list is strictly positive as long as both
class proportions stay below `1 - 1e-8` (guaranteed here by
`length < 10^8`). -/
theorem entropy_pos_two (y : List Nat) (a b : Nat)
    (hsd : sortedDistinct y = [a, b])
    (hca : 0 < y.count a) (hcla : y.count a < y.length)
    (hcb : 0 < y.count b) (hclb : y.count b < y.length)
    (hsmall : y.length < 100000000) : 0 < entropy y := by
  have hn : (0 : ℝ) < (y.length : ℝ) := by
    exact_mod_cast Nat.lt_trans hca hcla
  have hsm : ((y.length : ℝ)) < 100000000 := by exact_mod_cast hsmall
  have key : ∀ c : Nat, 0 < c → c < y.length →
      ((c : ℝ) / (y.length : ℝ)) *
        Real.logb 2 ((c : ℝ) / (y.length : ℝ) + 1e-8) < 0 := by
    intro c hc hcl
    have hc1 : ((c : ℝ)) + 1 ≤ (y.length : ℝ) := by exact_mod_cast hcl
    have hp0 : 0 < (c : ℝ) / (y.length : ℝ) :=
      div_pos (by exact_mod_cast hc) hn
    have hp1 : (c : ℝ) / (y.length : ℝ) + 1e-8 < 1 := by
      rw [show (c : ℝ) / (y.length : ℝ) + 1e-8 =
        ((c : ℝ) + 1e-8 * (y.length : ℝ)) / (y.length : ℝ) by field_simp]
      rw [div_lt_one hn]
      nlinarith
    have hlogb : Real.logb 2 ((c : ℝ) / (y.length : ℝ) + 1e-8) < 0 :=
      Real.logb_neg one_lt_two (by linarith) hp1
    exact mul_neg_of_pos_of_neg hp0 hlogb
  have k1 := key (y.count a) hca hcla
  have k2 := key (y.count b) hcb hclb
  rw [entropy, hsd]
  simp only [List.map_cons, List.map_nil, List.sum_cons, List.sum_nil]
  nlinarith

/- ------------------------------------------------------------------ -/
/- C9: the max_depth=1 scenario tree -/
/- ------------------------------------------------------------------ -/

/-- On the scenario data the split search selects feature `0`, threshold
`3`, and the depth-1 children are majority leaves `0` and `1`. -/
theorem buildTree_scenario :
    buildTree 1 2 1 [[(1 : ℚ)], [2], [3], [4], [5], [6]] [0, 0, 0, 1, 1, 1] 0 =
      Node.inner 0 3 (Node.leaf 0) (Node.leaf 1) := by
  have hLpos : 0 < Real.logb 2 (1 + 1e-8) := Real.logb_pos one_lt_two (by norm_num)
  have hp0 : entropy [0] = -Real.logb 2 (1 + 1e-8) := entropy_pure _ 0 (by simp) (by decide)
  have hp00 : entropy [0, 0] = -Real.logb 2 (1 + 1e-8) := entropy_pure _ 0 (by simp) (by decide)
  have hp000 : entropy [0, 0, 0] = -Real.logb 2 (1 + 1e-8) :=
    entropy_pure _ 0 (by simp) (by decide)
  have hp111 : entropy [1, 1, 1] = -Real.logb 2 (1 + 1e-8) :=
    entropy_pure _ 1 (by simp) (by decide)
  have hp11 : entropy [1, 1] = -Real.logb 2 (1 + 1e-8) := entropy_pure _ 1 (by simp) (by decide)
  have hp1 : entropy [1] = -Real.logb 2 (1 + 1e-8) := entropy_pure _ 1 (by simp) (by decide)
  have hH : 0 < entropy [0, 0, 0, 1, 1, 1] :=
    entropy_pos_two _ 0 1 (by decide) (by decide) (by decide) (by decide) (by decide) (by decide)
  have hE1 : 0 < entropy [0, 0, 1, 1, 1] :=
    entropy_pos_two _ 0 1 (by decide) (by decide) (by decide) (by decide) (by decide) (by decide)
  have hE2 : 0 < entropy [0, 1, 1, 1] :=
    entropy_pos_two _ 0 1 (by decide) (by decide) (by decide) (by decide) (by decide) (by decide)
  have hE4 : 0 < entropy [0, 0, 0, 1] :=
    entropy_pos_two _ 0 1 (by decide) (by decide) (by decide) (by decide) (by decide) (by decide)
  have hE5 : 0 < entropy [0, 0, 0, 1, 1] :=
    entropy_pos_two _ 0 1 (by decide) (by decide) (by decide) (by decide) (by decide) (by decide)
  have hg1 : informationGain [[(1 : ℚ)], [2], [3], [4], [5], [6]] [0, 0, 0, 1, 1, 1] 0 1 =
      entropy [0, 0, 0, 1, 1, 1] -
        ((1 : ℝ) / 6 * entropy [0] + (5 : ℝ) / 6 * entropy [0, 0, 1, 1, 1]) := by
    rw [informationGain_eval _ _ _ _ [([(1 : ℚ)], 0)]
      [([(2 : ℚ)], 0), ([(3 : ℚ)], 0), ([(4 : ℚ)], 1), ([(5 : ℚ)], 1), ([(6 : ℚ)], 1)]
      (by decide) (by decide) (by simp) (by simp)]
    norm_num
  have hg2 : informationGain [[(1 : ℚ)], [2], [3], [4], [5], [6]] [0, 0, 0, 1, 1, 1] 0 2 =
      entropy [0, 0, 0, 1, 1, 1] -
        ((2 : ℝ) / 6 * entropy [0, 0] + (4 : ℝ) / 6 * entropy [0, 1, 1, 1]) := by
    rw [informationGain_eval _ _ _ _ [([(1 : ℚ)], 0), ([(2 : ℚ)], 0)]
      [([(3 : ℚ)], 0), ([(4 : ℚ)], 1), ([(5 : ℚ)], 1), ([(6 : ℚ)], 1)]
      (by decide) (by decide) (by simp) (by simp)]
    norm_num
  have hg3 : informationGain [[(1 : ℚ)], [2], [3], [4], [5], [6]] [0, 0, 0, 1, 1, 1] 0 3 =
      entropy [0, 0, 0, 1, 1, 1] -
        ((3 : ℝ) / 6 * entropy [0, 0, 0] + (3 : ℝ) / 6 * entropy [1, 1, 1]) := by
    rw [informationGain_eval _ _ _ _ [([(1 : ℚ)], 0), ([(2 : ℚ)], 0), ([(3 : ℚ)], 0)]
      [([(4 : ℚ)], 1), ([(5 : ℚ)], 1), ([(6 : ℚ)], 1)]
      (by decide) (by decide) (by simp) (by simp)]
    norm_num
  have hg4 : informationGain [[(1 : ℚ)], [2], [3], [4], [5], [6]] [0, 0, 0, 1, 1, 1] 0 4 =
      entropy [0, 0, 0, 1, 1, 1] -
        ((4 : ℝ) / 6 * entropy [0, 0, 0, 1] + (2 : ℝ) / 6 * entropy [1, 1]) := by
    rw [informationGain_eval _ _ _ _
      [([(1 : ℚ)], 0), ([(2 : ℚ)], 0), ([(3 : ℚ)], 0), ([(4 : ℚ)], 1)]
      [([(5 : ℚ)], 1), ([(6 : ℚ)], 1)]
      (by decide) (by decide) (by simp) (by simp)]
    norm_num
  have hg5 : informationGain [[(1 : ℚ)], [2], [3], [4], [5], [6]] [0, 0, 0, 1, 1, 1] 0 5 =
      entropy [0, 0, 0, 1, 1, 1] -
        ((5 : ℝ) / 6 * entropy [0, 0, 0, 1, 1] + (1 : ℝ) / 6 * entropy [1]) := by
    rw [informationGain_eval _ _ _ _
      [([(1 : ℚ)], 0), ([(2 : ℚ)], 0), ([(3 : ℚ)], 0), ([(4 : ℚ)], 1), ([(5 : ℚ)], 1)]
      [([(6 : ℚ)], 1)]
      (by decide) (by decide) (by simp) (by simp)]
    norm_num
  have hg6 : informationGain [[(1 : ℚ)], [2], [3], [4], [5], [6]] [0, 0, 0, 1, 1, 1] 0 6 = 0 :=
    informationGain_zero_of_right_empty _ _ _ _ (by decide)
  have hgpos : 0 < informationGain [[(1 : ℚ)], [2], [3], [4], [5], [6]] [0, 0, 0, 1, 1, 1] 0 3 := by
    rw [hg3, hp000, hp111]
    linarith
  have hbs : bestSplit [[(1 : ℚ)], [2], [3], [4], [5], [6]] [0, 0, 0, 1, 1, 1] =
      ⟨some 0, some 3,
        informationGain [[(1 : ℚ)], [2], [3], [4], [5], [6]] [0, 0, 0, 1, 1, 1] 0 3⟩ := by
    apply bestSplit_eq_argmax _ _ [(0, 1), (0, 2)] [(0, 4), (0, 5), (0, 6)] (0, 3) (by decide)
    · linarith
    · intro c2 hc2
      have hcc : c2 = (0, 1) ∨ c2 = (0, 2) := by simpa using hc2
      rcases hcc with rfl | rfl
      · dsimp only
        rw [hg1, hg3, hp0, hp000, hp111]
        linarith
      · dsimp only
        rw [hg2, hg3, hp00, hp000, hp111]
        linarith
    · intro c2 hc2
      have hcc : c2 = (0, 4) ∨ c2 = (0, 5) ∨ c2 = (0, 6) := by simpa using hc2
      rcases hcc with rfl | rfl | rfl
      · dsimp only
        rw [hg4, hg3, hp11, hp000, hp111]
        linarith
      · dsimp only
        rw [hg5, hg3, hp1, hp000, hp111]
        linarith
      · dsimp only
        rw [hg6, hg3, hp000, hp111]
        linarith
  have hchildL : buildTree 1 2 1 [[(1 : ℚ)], [2], [3]] [0, 0, 0] 1 = Node.leaf 0 := by
    rw [buildTree, dif_pos (by decide), show mostCommonClass [0, 0, 0] = 0 from by decide]
  have hchildR : buildTree 1 2 1 [[(4 : ℚ)], [5], [6]] [1, 1, 1] 1 = Node.leaf 1 := by
    rw [buildTree, dif_pos (by decide), show mostCommonClass [1, 1, 1] = 1 from by decide]
  rw [buildTree, dif_neg (by decide), hbs]
  dsimp only
  rw [if_neg (ne_of_gt hgpos)]
  rw [if_neg (by decide)]
  rw [show (leftPairs [[(1 : ℚ)], [2], [3], [4], [5], [6]] [0, 0, 0, 1, 1, 1] 0 3).map
        Prod.fst = [[(1 : ℚ)], [2], [3]] from by decide,
    show (leftPairs [[(1 : ℚ)], [2], [3], [4], [5], [6]] [0, 0, 0, 1, 1, 1] 0 3).map
        Prod.snd = [0, 0, 0] from by decide,
    show (rightPairs [[(1 : ℚ)], [2], [3], [4], [5], [6]] [0, 0, 0, 1, 1, 1] 0 3).map
        Prod.fst = [[(4 : ℚ)], [5], [6]] from by decide,
    show (rightPairs [[(1 : ℚ)], [2], [3], [4], [5], [6]] [0, 0, 0, 1, 1, 1] 0 3).map
        Prod.snd = [1, 1, 1] from by decide,
    hchildL, hchildR]

/-- C9: fitting the Tree Builder with `max_depth = 1` on
`X = [[1],[2],[3],[4],[5],[6]]`, `y = [0,0,0,1,1,1]` produces a root
internal node splitting feature `0` at threshold `3`, and
`predict([[1],[6]])` returns `[0, 1]`. -/
theorem tree_scenario_threshold_three (r : Rng) :
    ((DecisionTree.fit (DecisionTree.init 1 2 1 none)
        [[(1 : ℚ)], [2], [3], [4], [5], [6]] [0, 0, 0, 1, 1, 1] r).1).root =
      some (Node.inner 0 3 (Node.leaf 0) (Node.leaf 1)) ∧
    DecisionTree.predict
        ((DecisionTree.fit (DecisionTree.init 1 2 1 none)
          [[(1 : ℚ)], [2], [3], [4], [5], [6]] [0, 0, 0, 1, 1, 1] r).1)
        [[(1 : ℚ)], [6]] = Except.ok [0, 1] := by
  constructor
  · simp only [DecisionTree.fit, DecisionTree.init]
    rw [buildTree_scenario]
  · simp only [DecisionTree.fit, DecisionTree.init, DecisionTree.predict]
    rw [buildTree_scenario]
    simp [treePredictList, predictSample]
    norm_num

/- ------------------------------------------------------------------ -/
/- C6: the feature-subset sizes -/
/- ------------------------------------------------------------------ -/

/-- A list is a permutation of the element at index `i` consed onto the
list with index `i` erased. -/
theorem perm_getD_cons_eraseIdx (l : List Nat) (i : Nat) (h : i < l.length) :
    l.Perm (l.getD i 0 :: l.eraseIdx i) := by
  rw [List.getD_eq_getElem l 0 h]
  exact (List.perm_cons_erase (List.getElem_mem h)).trans
    ((List.erase_getElem h).cons _)

/-- `Nat.sqrt` characterization used to evaluate it at literals (it is a
well-founded definition, so the kernel cannot reduce it). -/
theorem nat_sqrt_eq (n m : Nat) (h1 : m * m ≤ n) (h2 : n < (m + 1) * (m + 1)) :
    Nat.sqrt n = m :=
  le_antisymm (Nat.lt_succ_iff.mp (Nat.sqrt_lt.mpr h2)) (Nat.le_sqrt.mpr h1)

/-- Size, distinctness and range of the modelled
`np.random.choice(·, ·, replace=False)`. -/
theorem pickDistinct_spec :
    ∀ (k : Nat) (l : List Nat) (r : Rng), l.Nodup →
      (pickDistinct l k r).1.length = min k l.length ∧
        (pickDistinct l k r).1.Nodup ∧ ∀ x ∈ (pickDistinct l k r).1, x ∈ l := by
  intro k
  induction k with
  | zero => intro l r _; simp [pickDistinct]
  | succ k ih =>
      intro l r hnd
      match l with
      | [] => simp [pickDistinct]
      | a :: rest =>
          have hidx : (Rng.next r).1 % (rest.length + 1) < (a :: rest).length := by
            simp [Nat.mod_lt _ (Nat.succ_pos rest.length)]
          have hperm := perm_getD_cons_eraseIdx (a :: rest)
            ((Rng.next r).1 % (rest.length + 1)) hidx
          have hcons : ((a :: rest).getD ((Rng.next r).1 % (rest.length + 1)) 0 ::
              (a :: rest).eraseIdx ((Rng.next r).1 % (rest.length + 1))).Nodup :=
            hperm.nodup_iff.mp hnd
          have hchosen_mem : (a :: rest).getD ((Rng.next r).1 % (rest.length + 1)) 0 ∈
              a :: rest := getD_mem_of_lt _ _ _ hidx
          have hnotin := (List.nodup_cons.mp hcons).1
          have hndrest := (List.nodup_cons.mp hcons).2
          have hsub : ((a :: rest).eraseIdx ((Rng.next r).1 % (rest.length + 1))) ⊆
              a :: rest := (List.eraseIdx_sublist _ _).subset
          have hlen : ((a :: rest).eraseIdx ((Rng.next r).1 % (rest.length + 1))).length
              = rest.length := by
            have h2 := List.length_eraseIdx_add_one hidx
            simp only [List.length_cons] at h2
            omega
          obtain ⟨ih1, ih2, ih3⟩ := ih
            ((a :: rest).eraseIdx ((Rng.next r).1 % (rest.length + 1)))
            (Rng.next r).2 hndrest
          refine ⟨?_, ?_, ?_⟩
          · simp only [pickDistinct]
            simp only [List.length_cons, ih1, hlen]
            omega
          · simp only [pickDistinct, List.nodup_cons]
            exact ⟨fun hc => hnotin (ih3 _ hc), ih2⟩
          · intro x hx
            simp only [pickDistinct, List.mem_cons] at hx
            rcases hx with rfl | hx2
            · exact hchosen_mem
            · exact hsub (ih3 x hx2)

/-- C6 counterexample: with `max_features = sqrt` and `n_features = 3` the
code selects `int(np.sqrt(3)) = 1` feature, while the claimed
`round(sqrt(3))` equals `2`. -/
theorem max_features_sqrt_size_truncates :
    (RandomForest.getRandomFeatures MaxFeatures.sqrtMode 3 ⟨fun _ => 0, 0⟩).1.length = 1 ∧
    round (Real.sqrt 3) = (2 : ℤ) := by
  constructor
  · have h31 : Nat.sqrt 3 = 1 := nat_sqrt_eq 3 1 (by norm_num) (by norm_num)
    rw [RandomForest.getRandomFeatures, npChoiceNoRep,
      show nSelectedFeatures MaxFeatures.sqrtMode 3 = Nat.sqrt 3 from rfl, h31]
    decide
  · have h1 : (1.5 : ℝ) ≤ Real.sqrt 3 := by
      rw [show (1.5 : ℝ) = 3 / 2 by norm_num, Real.le_sqrt (by norm_num) (by norm_num)]
      norm_num
    have h2 : Real.sqrt 3 < 2.5 := by
      rw [Real.sqrt_lt' (by norm_num)]
      norm_num
    rw [round_eq, Int.floor_eq_iff]
    constructor
    · push_cast
      linarith
    · push_cast
      linarith

/-- C6 amended: the subset size is `int(...)` (floor), not `round(...)`:
`Nat.sqrt n` for `sqrt`, `Nat.log2 n` for `log2`, `min(count, n)` for an
explicit integer, `⌊fraction * n⌋` for an explicit fraction, and `n`
otherwise; the drawn indices are distinct and all below `n_features`. -/
theorem getRandomFeatures_spec (mfm : MaxFeatures) (n : Nat) (r : Rng)
    (hsel : nSelectedFeatures mfm n ≤ n) :
    (RandomForest.getRandomFeatures mfm n r).1.length = nSelectedFeatures mfm n ∧
    (RandomForest.getRandomFeatures mfm n r).1.Nodup ∧
    (∀ x ∈ (RandomForest.getRandomFeatures mfm n r).1, x < n) ∧
    nSelectedFeatures MaxFeatures.sqrtMode n = Nat.sqrt n ∧
    nSelectedFeatures MaxFeatures.log2Mode n = Nat.log2 n ∧
    (∀ c : Nat, nSelectedFeatures (MaxFeatures.count c) n = min c n) ∧
    (∀ f : ℚ, nSelectedFeatures (MaxFeatures.frac f) n = (⌊f * (n : ℚ)⌋).toNat) ∧
    nSelectedFeatures MaxFeatures.allFeatures n = n := by
  have hs := pickDistinct_spec (nSelectedFeatures mfm n) (List.range n) r (List.nodup_range n)
  rw [RandomForest.getRandomFeatures, npChoiceNoRep]
  refine ⟨?_, hs.2.1, ?_, rfl, rfl, fun _ => rfl, fun _ => rfl, rfl⟩
  · rw [hs.1, List.length_range]
    exact Nat.min_eq_left hsel
  · intro x hx
    have := hs.2.2 x hx
    simpa using this

/-- C6 amended, witness: `sqrt` mode with 4 features selects
`Nat.sqrt 4 = 2` distinct in-range indices. -/
theorem getRandomFeatures_spec_witness :
    nSelectedFeatures MaxFeatures.sqrtMode 4 ≤ 4 ∧
    ((RandomForest.getRandomFeatures MaxFeatures.sqrtMode 4 ⟨fun _ => 0, 0⟩).1.length =
        nSelectedFeatures MaxFeatures.sqrtMode 4 ∧
      (RandomForest.getRandomFeatures MaxFeatures.sqrtMode 4 ⟨fun _ => 0, 0⟩).1.Nodup ∧
      (∀ x ∈ (RandomForest.getRandomFeatures MaxFeatures.sqrtMode 4 ⟨fun _ => 0, 0⟩).1, x < 4) ∧
      nSelectedFeatures MaxFeatures.sqrtMode 4 = Nat.sqrt 4 ∧
      nSelectedFeatures MaxFeatures.log2Mode 4 = Nat.log2 4 ∧
      (∀ c : Nat, nSelectedFeatures (MaxFeatures.count c) 4 = min c 4) ∧
      (∀ f : ℚ, nSelectedFeatures (MaxFeatures.frac f) 4 = (⌊f * (4 : ℚ)⌋).toNat) ∧
      nSelectedFeatures MaxFeatures.allFeatures 4 = 4) :=
  have hsel : nSelectedFeatures MaxFeatures.sqrtMode 4 ≤ 4 := by
    rw [show nSelectedFeatures MaxFeatures.sqrtMode 4 = Nat.sqrt 4 from rfl,
      nat_sqrt_eq 4 2 (by norm_num) (by norm_num)]
    norm_num
  ⟨hsel, getRandomFeatures_spec MaxFeatures.sqrtMode 4 ⟨fun _ => 0, 0⟩ hsel⟩

/- ------------------------------------------------------------------ -/
/- C8: forest with a single tree vs a plain tree -/
/- ------------------------------------------------------------------ -/

/-- The tree built on the column-swapped copy of `X = [[0,1],[1,0]]`,
`y = [0,1]`: both candidate splits tie on gain, so the first-found one (on
the swapped first column, original column 1) wins. -/
theorem buildTree_swap_cols :
    buildTree 10 2 1 [[(1 : ℚ), 0], [0, 1]] [0, 1] 0 =
      Node.inner 0 0 (Node.leaf 1) (Node.leaf 0) := by
  have hLpos : 0 < Real.logb 2 (1 + 1e-8) := Real.logb_pos one_lt_two (by norm_num)
  have hp0 : entropy [0] = -Real.logb 2 (1 + 1e-8) := entropy_pure _ 0 (by simp) (by decide)
  have hp1 : entropy [1] = -Real.logb 2 (1 + 1e-8) := entropy_pure _ 1 (by simp) (by decide)
  have hH : 0 < entropy [0, 1] :=
    entropy_pos_two _ 0 1 (by decide) (by decide) (by decide) (by decide) (by decide) (by decide)
  have hga : informationGain [[(1 : ℚ), 0], [0, 1]] [0, 1] 0 0 =
      entropy [0, 1] - ((1 : ℝ) / 2 * entropy [1] + (1 : ℝ) / 2 * entropy [0]) := by
    rw [informationGain_eval _ _ _ _ [([(0 : ℚ), 1], 1)] [([(1 : ℚ), 0], 0)]
      (by decide) (by decide) (by simp) (by simp)]
    norm_num
  have hgb : informationGain [[(1 : ℚ), 0], [0, 1]] [0, 1] 1 0 =
      entropy [0, 1] - ((1 : ℝ) / 2 * entropy [0] + (1 : ℝ) / 2 * entropy [1]) := by
    rw [informationGain_eval _ _ _ _ [([(1 : ℚ), 0], 0)] [([(0 : ℚ), 1], 1)]
      (by decide) (by decide) (by simp) (by simp)]
    norm_num
  have hgc : informationGain [[(1 : ℚ), 0], [0, 1]] [0, 1] 0 1 = 0 :=
    informationGain_zero_of_right_empty _ _ _ _ (by decide)
  have hgd : informationGain [[(1 : ℚ), 0], [0, 1]] [0, 1] 1 1 = 0 :=
    informationGain_zero_of_right_empty _ _ _ _ (by decide)
  have hgpos : 0 < informationGain [[(1 : ℚ), 0], [0, 1]] [0, 1] 0 0 := by
    rw [hga, hp0, hp1]
    linarith
  have hbs : bestSplit [[(1 : ℚ), 0], [0, 1]] [0, 1] =
      ⟨some 0, some 0, informationGain [[(1 : ℚ), 0], [0, 1]] [0, 1] 0 0⟩ := by
    apply bestSplit_eq_argmax _ _ [] [(0, 1), (1, 0), (1, 1)] (0, 0) (by decide)
    · linarith
    · intro c2 hc2
      simp at hc2
    · intro c2 hc2
      have hcc : c2 = (0, 1) ∨ c2 = (1, 0) ∨ c2 = (1, 1) := by simpa using hc2
      rcases hcc with rfl | rfl | rfl
      · dsimp only
        rw [hgc, hga, hp0, hp1]
        linarith
      · dsimp only
        rw [hgb, hga, hp0, hp1]
      · dsimp only
        rw [hgd, hga, hp0, hp1]
        linarith
  have hchildL : buildTree 10 2 1 [[(0 : ℚ), 1]] [1] 1 = Node.leaf 1 := by
    rw [buildTree, dif_pos (by decide), show mostCommonClass [1] = 1 from by decide]
  have hchildR : buildTree 10 2 1 [[(1 : ℚ), 0]] [0] 1 = Node.leaf 0 := by
    rw [buildTree, dif_pos (by decide), show mostCommonClass [0] = 0 from by decide]
  rw [buildTree, dif_neg (by decide), hbs]
  dsimp only
  rw [if_neg (ne_of_gt hgpos)]
  rw [if_neg (by decide)]
  rw [show (leftPairs [[(1 : ℚ), 0], [0, 1]] [0, 1] 0 0).map Prod.fst = [[(0 : ℚ), 1]]
      from by decide,
    show (leftPairs [[(1 : ℚ), 0], [0, 1]] [0, 1] 0 0).map Prod.snd = [1] from by decide,
    show (rightPairs [[(1 : ℚ), 0], [0, 1]] [0, 1] 0 0).map Prod.fst = [[(1 : ℚ), 0]]
      from by decide,
    show (rightPairs [[(1 : ℚ), 0], [0, 1]] [0, 1] 0 0).map Prod.snd = [0] from by decide,
    hchildL, hchildR]

/-- The tree built directly on `X = [[0,1],[1,0]]`, `y = [0,1]`: the
first-found tied split is on the original column 0. -/
theorem buildTree_plain_cols :
    buildTree 10 2 1 [[(0 : ℚ), 1], [1, 0]] [0, 1] 0 =
      Node.inner 0 0 (Node.leaf 0) (Node.leaf 1) := by
  have hLpos : 0 < Real.logb 2 (1 + 1e-8) := Real.logb_pos one_lt_two (by norm_num)
  have hp0 : entropy [0] = -Real.logb 2 (1 + 1e-8) := entropy_pure _ 0 (by simp) (by decide)
  have hp1 : entropy [1] = -Real.logb 2 (1 + 1e-8) := entropy_pure _ 1 (by simp) (by decide)
  have hH : 0 < entropy [0, 1] :=
    entropy_pos_two _ 0 1 (by decide) (by decide) (by decide) (by decide) (by decide) (by decide)
  have hga : informationGain [[(0 : ℚ), 1], [1, 0]] [0, 1] 0 0 =
      entropy [0, 1] - ((1 : ℝ) / 2 * entropy [0] + (1 : ℝ) / 2 * entropy [1]) := by
    rw [informationGain_eval _ _ _ _ [([(0 : ℚ), 1], 0)] [([(1 : ℚ), 0], 1)]
      (by decide) (by decide) (by simp) (by simp)]
    norm_num
  have hgb : informationGain [[(0 : ℚ), 1], [1, 0]] [0, 1] 1 0 =
      entropy [0, 1] - ((1 : ℝ) / 2 * entropy [1] + (1 : ℝ) / 2 * entropy [0]) := by
    rw [informationGain_eval _ _ _ _ [([(1 : ℚ), 0], 1)] [([(0 : ℚ), 1], 0)]
      (by decide) (by decide) (by simp) (by simp)]
    norm_num
  have hgc : informationGain [[(0 : ℚ), 1], [1, 0]] [0, 1] 0 1 = 0 :=
    informationGain_zero_of_right_empty _ _ _ _ (by decide)
  have hgd : informationGain [[(0 : ℚ), 1], [1, 0]] [0, 1] 1 1 = 0 :=
    informationGain_zero_of_right_empty _ _ _ _ (by decide)
  have hgpos : 0 < informationGain [[(0 : ℚ), 1], [1, 0]] [0, 1] 0 0 := by
    rw [hga, hp0, hp1]
    linarith
  have hbs : bestSplit [[(0 : ℚ), 1], [1, 0]] [0, 1] =
      ⟨some 0, some 0, informationGain [[(0 : ℚ), 1], [1, 0]] [0, 1] 0 0⟩ := by
    apply bestSplit_eq_argmax _ _ [] [(0, 1), (1, 0), (1, 1)] (0, 0) (by decide)
    · linarith
    · intro c2 hc2
      simp at hc2
    · intro c2 hc2
      have hcc : c2 = (0, 1) ∨ c2 = (1, 0) ∨ c2 = (1, 1) := by simpa using hc2
      rcases hcc with rfl | rfl | rfl
      · dsimp only
        rw [hgc, hga, hp0, hp1]
        linarith
      · dsimp only
        rw [hgb, hga, hp0, hp1]
      · dsimp only
        rw [hgd, hga, hp0, hp1]
        linarith
  have hchildL : buildTree 10 2 1 [[(0 : ℚ), 1]] [0] 1 = Node.leaf 0 := by
    rw [buildTree, dif_pos (by decide), show mostCommonClass [0] = 0 from by decide]
  have hchildR : buildTree 10 2 1 [[(1 : ℚ), 0]] [1] 1 = Node.leaf 1 := by
    rw [buildTree, dif_pos (by decide), show mostCommonClass [1] = 1 from by decide]
  rw [buildTree, dif_neg (by decide), hbs]
  dsimp only
  rw [if_neg (ne_of_gt hgpos)]
  rw [if_neg (by decide)]
  rw [show (leftPairs [[(0 : ℚ), 1], [1, 0]] [0, 1] 0 0).map Prod.fst = [[(0 : ℚ), 1]]
      from by decide,
    show (leftPairs [[(0 : ℚ), 1], [1, 0]] [0, 1] 0 0).map Prod.snd = [0] from by decide,
    show (rightPairs [[(0 : ℚ), 1], [1, 0]] [0, 1] 0 0).map Prod.fst = [[(1 : ℚ), 0]]
      from by decide,
    show (rightPairs [[(0 : ℚ), 1], [1, 0]] [0, 1] 0 0).map Prod.snd = [1] from by decide,
    hchildL, hchildR]

/-- Reading a list back through `getD` over its index range. -/
theorem map_range_getD {α : Type} (d : α) :
    ∀ (l : List α), (List.range l.length).map (fun i => l.getD i d) = l
  | [] => rfl
  | a :: t => by
      rw [List.length_cons, List.range_succ_eq_map, List.map_cons, List.map_map]
      rw [show ((fun i => (a :: t).getD i d) ∘ Nat.succ) = fun i => t.getD i d from
        funext fun i => by simp]
      rw [map_range_getD d t]
      simp

/-- Selecting all columns in natural order is the identity on rows of the
right length. -/
theorem selectCols_full (Z : List (List ℚ)) (n : Nat)
    (hZ : ∀ row ∈ Z, row.length = n) : selectCols Z (List.range n) = Z := by
  rw [selectCols]
  have hrows : ∀ row ∈ Z, (List.range n).map (fun i => row.getD i 0) = row := by
    intro row hrow
    rw [← hZ row hrow]
    exact map_range_getD 0 row
  calc Z.map (fun row => (List.range n).map fun i => row.getD i 0) = Z.map id :=
        List.map_congr_left hrows
    _ = Z := List.map_id Z

/-- The vote over a single prediction is that prediction. -/
theorem mostCommonClass_singleton (v : Nat) : mostCommonClass [v] = v := by
  simp [mostCommonClass, sortedDistinct, insertSorted, argmaxIdx]

/-- C8 counterexample.  With `n_estimators = 1`, `bootstrap` disabled and
the full feature subset, the drawn subset is a random permutation of the
columns; on `X = [[0,1],[1,0]]`, `y = [0,1]` with a stream that draws the
swapped permutation `[1,0]`, the two tied candidate splits are scanned in
the opposite order, and the forest predicts `[1]` on `[[0,0]]` while a
plain Tree Builder with the same configuration predicts `[0]`. -/
theorem forest_single_tree_differs_from_plain_tree :
    RandomForest.predict
        (RandomForest.fit (RandomForest.init 1 10 2 1 MaxFeatures.allFeatures false none)
          [[(0 : ℚ), 1], [1, 0]] [0, 1] ⟨fun i => if i = 0 then 1 else 0, 0⟩).1
        [[(0 : ℚ), 0]] = Except.ok [1] ∧
    DecisionTree.predict
        (DecisionTree.fit (DecisionTree.init 10 2 1 none)
          [[(0 : ℚ), 1], [1, 0]] [0, 1] ⟨fun i => if i = 0 then 1 else 0, 0⟩).1
        [[(0 : ℚ), 0]] = Except.ok [0] := by
  constructor
  · have hfeat : RandomForest.getRandomFeatures MaxFeatures.allFeatures 2
        ⟨fun i => if i = 0 then 1 else 0, 0⟩ =
        ([1, 0], ⟨fun i => if i = 0 then 1 else 0, 2⟩) := by
      rw [RandomForest.getRandomFeatures, npChoiceNoRep]
      norm_num [nSelectedFeatures, pickDistinct, Rng.next]
    have hsel : selectCols [[(0 : ℚ), 1], [1, 0]] [1, 0] = [[(1 : ℚ), 0], [0, 1]] := by
      decide
    have hselq : selectCols [[(0 : ℚ), 0]] [1, 0] = [[(0 : ℚ), 0]] := by decide
    simp only [RandomForest.fit, RandomForest.fitLoop, RandomForest.init, truthy,
      Bool.false_eq_true, if_false, DecisionTree.fit, DecisionTree.init]
    simp only [RandomForest.predict, treePredictions]
    rw [if_neg (by simp)]
    norm_num [hfeat, hsel, hselq, buildTree_swap_cols, treePredictList, predictSample,
      List.range_succ, mostCommonClass_singleton]
  · simp only [DecisionTree.fit, DecisionTree.init, DecisionTree.predict,
      buildTree_plain_cols]
    simp only [treePredictList, List.map_cons, List.map_nil, predictSample]
    norm_num

/-- C8 amended: with `n_estimators = 1`, `bootstrap` disabled, the full
feature subset, and the drawn permutation equal to the identity
`[0, …, n-1]` (the permutation is random; the counterexample shows a
swapped draw breaks the equality), the forest's predictions equal those of
a single Tree Builder fitted with the same configuration on the same
data. -/
theorem forest_single_tree_reduction
    (m : RandomForest) (X : List (List ℚ)) (y : List Nat) (q : List (List ℚ)) (r : Rng)
    (h1 : m.n_estimators = 1) (hb : m.bootstrap = false) (hrs : m.random_state = none)
    (hfeat : (RandomForest.getRandomFeatures m.max_features (X.headD []).length r).1 =
      List.range (X.headD []).length)
    (hX : ∀ row ∈ X, row.length = (X.headD []).length)
    (hq : ∀ row ∈ q, row.length = (X.headD []).length) :
    RandomForest.predict (RandomForest.fit m X y r).1 q =
      DecisionTree.predict
        (DecisionTree.fit (DecisionTree.init m.max_depth m.min_samples_split
          m.min_samples_leaf none) X y r).1 q := by
  simp only [RandomForest.fit, RandomForest.fitLoop, h1, hb, hrs, truthy,
    Bool.false_eq_true, if_false, DecisionTree.fit, DecisionTree.init, hfeat,
    selectCols_full X _ hX, selectCols_full q _ hq]
  simp only [RandomForest.predict, treePredictions, DecisionTree.predict]
  rw [if_neg (by simp)]
  simp only [List.zip_cons_cons, List.zip_nil_right, List.map_cons, List.map_nil, hfeat,
    selectCols_full q _ hq]
  rw [show (List.range q.length) =
    (List.range (treePredictList
      (buildTree m.max_depth m.min_samples_split m.min_samples_leaf X y 0) q).length)
    from by rw [treePredictList, List.length_map]]
  rw [show (fun j => mostCommonClass
      [(treePredictList (buildTree m.max_depth m.min_samples_split m.min_samples_leaf X y 0)
          q).getD j 0]) =
    (fun j => (treePredictList
      (buildTree m.max_depth m.min_samples_split m.min_samples_leaf X y 0) q).getD j 0)
    from funext fun j => mostCommonClass_singleton _]
  rw [map_range_getD]

/-- C8 amended, witness: an identity draw on a one-row, two-feature data
set. -/
theorem forest_single_tree_reduction_witness :
    ((RandomForest.init 1 10 2 1 MaxFeatures.allFeatures false none).n_estimators = 1 ∧
      (RandomForest.init 1 10 2 1 MaxFeatures.allFeatures false none).bootstrap = false ∧
      (RandomForest.init 1 10 2 1 MaxFeatures.allFeatures false none).random_state = none ∧
      (RandomForest.getRandomFeatures
        (RandomForest.init 1 10 2 1 MaxFeatures.allFeatures false none).max_features
        ([[(1 : ℚ), 2]].headD []).length ⟨fun _ => 0, 0⟩).1 =
        List.range ([[(1 : ℚ), 2]].headD []).length ∧
      (∀ row ∈ [[(1 : ℚ), 2]], row.length = ([[(1 : ℚ), 2]].headD []).length) ∧
      (∀ row ∈ [[(3 : ℚ), 4]], row.length = ([[(1 : ℚ), 2]].headD []).length)) ∧
    RandomForest.predict
        (RandomForest.fit (RandomForest.init 1 10 2 1 MaxFeatures.allFeatures false none)
          [[(1 : ℚ), 2]] [0] ⟨fun _ => 0, 0⟩).1 [[(3 : ℚ), 4]] =
      DecisionTree.predict
        (DecisionTree.fit (DecisionTree.init
          (RandomForest.init 1 10 2 1 MaxFeatures.allFeatures false none).max_depth
          (RandomForest.init 1 10 2 1 MaxFeatures.allFeatures false none).min_samples_split
          (RandomForest.init 1 10 2 1 MaxFeatures.allFeatures false none).min_samples_leaf
          none) [[(1 : ℚ), 2]] [0] ⟨fun _ => 0, 0⟩).1 [[(3 : ℚ), 4]] :=
  have hh1 : (RandomForest.init 1 10 2 1 MaxFeatures.allFeatures false none).n_estimators
      = 1 := rfl
  have hhb : (RandomForest.init 1 10 2 1 MaxFeatures.allFeatures false none).bootstrap
      = false := rfl
  have hhrs : (RandomForest.init 1 10 2 1 MaxFeatures.allFeatures false none).random_state
      = none := rfl
  have hhf : (RandomForest.getRandomFeatures
      (RandomForest.init 1 10 2 1 MaxFeatures.allFeatures false none).max_features
      ([[(1 : ℚ), 2]].headD []).length ⟨fun _ => 0, 0⟩).1 =
      List.range ([[(1 : ℚ), 2]].headD []).length := by decide
  have hhX : ∀ row ∈ [[(1 : ℚ), 2]], row.length = ([[(1 : ℚ), 2]].headD []).length := by
    decide
  have hhq : ∀ row ∈ [[(3 : ℚ), 4]], row.length = ([[(1 : ℚ), 2]].headD []).length := by
    decide
  ⟨⟨hh1, hhb, hhrs, hhf, hhX, hhq⟩,
    forest_single_tree_reduction _ _ [0] _ _ hh1 hhb hhrs hhf hhX hhq⟩

/- ------------------------------------------------------------------ -/
/- C7: inertia is non-increasing across completed iterations -/
/- ------------------------------------------------------------------ -/

/-- A sum over a mapped `List.range` as a `Finset.range` sum. -/
theorem list_range_map_sum (g : Nat → ℚ) :
    ∀ (n : Nat), ((List.range n).map g).sum = ∑ i in Finset.range n, g i := by
  intro n
  induction n with
  | zero => simp
  | succ n ih =>
      rw [List.range_succ, List.map_append, List.sum_append, Finset.sum_range_succ, ih]
      simp

/-- Summing cluster by cluster equals summing sample by sample when every
label is in range. -/
theorem grouped_sum (k : Nat) (cs : List (List ℚ)) :
    ∀ (ps : List (List ℚ × Nat)), (∀ p ∈ ps, p.2 < k) →
      (∑ i in Finset.range k,
        (((ps.filter fun p => p.2 == i).map Prod.fst).map
          fun x => sqDist x (cs.getD i [])).sum)
        = (ps.map fun p => sqDist p.1 (cs.getD p.2 [])).sum := by
  intro ps
  induction ps with
  | nil => simp
  | cons p t ih =>
      intro hp
      have hpk := hp p (by simp)
      have iht := ih fun q hq => hp q (by simp [hq])
      have hterm : ∀ i, (((List.filter (fun q => q.2 == i) (p :: t)).map Prod.fst).map
          fun x => sqDist x (cs.getD i [])).sum =
          (((t.filter fun q => q.2 == i).map Prod.fst).map
            fun x => sqDist x (cs.getD i [])).sum +
          (if p.2 = i then sqDist p.1 (cs.getD i []) else 0) := by
        intro i
        by_cases hip : p.2 = i
        · rw [List.filter_cons_of_pos (by simp [hip]), if_pos hip]
          simp [add_comm]
        · rw [List.filter_cons_of_neg (by simp [hip]), if_neg hip]
          simp
      rw [Finset.sum_congr rfl fun i _ => hterm i, Finset.sum_add_distrib, iht]
      have hsingle : (∑ i in Finset.range k,
          if p.2 = i then sqDist p.1 (cs.getD i []) else 0) =
          sqDist p.1 (cs.getD p.2 []) := by
        rw [Finset.sum_ite_eq (Finset.range k) p.2 fun i => sqDist p.1 (cs.getD i [])]
        rw [if_pos (Finset.mem_range.mpr hpk)]
      rw [hsingle]
      simp [add_comm]

/-- `_calculate_inertia` as a per-sample sum. -/
theorem calculateInertia_eq_perSample (k : Nat) (X : List (List ℚ)) (l : List Nat)
    (cs : List (List ℚ)) (hlab : ∀ a ∈ l, a < k) :
    KMeans.calculateInertia k X l cs =
      ((X.zip l).map fun p => sqDist p.1 (cs.getD p.2 [])).sum := by
  rw [KMeans.calculateInertia, list_range_map_sum]
  exact grouped_sum k cs (X.zip l) fun p hp => hlab p.2 (List.of_mem_zip hp).2

/-- Reassigning each sample to its first-argmin nearest centroid does not
increase the per-sample inertia under fixed centroids. -/
theorem perSample_reassign (k : Nat) (cs : List (List ℚ))
    (hcs : cs.length = k) (hk : 0 < k) :
    ∀ (X : List (List ℚ)) (l : List Nat), l.length = X.length →
      (∀ a ∈ l, a < k) →
      ((X.zip (KMeans.assignClusters (KMeans.calculateDistance X cs))).map
          fun p => sqDist p.1 (cs.getD p.2 [])).sum ≤
        ((X.zip l).map fun p => sqDist p.1 (cs.getD p.2 [])).sum := by
  intro X
  induction X with
  | nil => intro l _ _; simp [KMeans.calculateDistance, KMeans.assignClusters]
  | cons x Xt ih =>
      intro l hlen hlab
      match l with
      | [] => simp at hlen
      | a :: lt =>
          have hlt : lt.length = Xt.length := by simpa using hlen
          have hlab2 : ∀ b ∈ lt, b < k := fun b hb => hlab b (by simp [hb])
          have hak : a < k := hlab a (by simp)
          have hrowlen : (cs.map fun c => sqDist x c).length = k := by
            simpa using hcs
          have hrowne : (cs.map fun c => sqDist x c) ≠ [] := by
            intro hc
            rw [hc] at hrowlen
            simp at hrowlen
            omega
          have hargl : argminIdx (cs.map fun c => sqDist x c) < k := by
            have := argminIdx_lt_length _ hrowne
            rwa [hrowlen] at this
          have hhead : sqDist x (cs.getD (argminIdx (cs.map fun c => sqDist x c)) []) ≤
              sqDist x (cs.getD a []) := by
            have hmin := argminIdx_getD_le 0 (cs.map fun c => sqDist x c) a
              (by rwa [hrowlen])
            rwa [getD_map_of_lt _ cs _ [] 0 (by rwa [hcs]),
              getD_map_of_lt _ cs _ [] 0 (by rwa [hcs])] at hmin
          have htail := ih lt hlt hlab2
          simp only [KMeans.calculateDistance, KMeans.assignClusters, List.map_cons,
            List.zip_cons_cons, List.sum_cons] at htail ⊢
          exact add_le_add hhead htail

/-- Expansion of a list sum of squared deviations from a point. -/
theorem sum_sq_dev_expand (c : ℚ) :
    ∀ (as : List ℚ), (as.map fun a => (a - c) ^ 2).sum =
      (as.map fun a => a ^ 2).sum - 2 * c * as.sum + as.length * c ^ 2 := by
  intro as
  induction as with
  | nil => simp
  | cons a t ih =>
      simp only [List.map_cons, List.sum_cons, List.length_cons, ih]
      push_cast
      ring

/-- The mean minimizes the sum of squared deviations (one dimension). -/
theorem sum_sq_dev_mean_le (as : List ℚ) (c : ℚ) (hne : as ≠ []) :
    (as.map fun a => (a - as.sum / as.length) ^ 2).sum ≤
      (as.map fun a => (a - c) ^ 2).sum := by
  have hn : (0 : ℚ) < (as.length : ℚ) := by
    have := List.length_pos.mpr hne
    exact_mod_cast this
  rw [sum_sq_dev_expand, sum_sq_dev_expand]
  have hkey : (as.length : ℚ) * c ^ 2 - 2 * c * as.sum -
      ((as.length : ℚ) * (as.sum / as.length) ^ 2 - 2 * (as.sum / as.length) * as.sum) =
      ((as.length : ℚ) * c - as.sum) ^ 2 / as.length := by
    field_simp
    ring
  have hsq : (0 : ℚ) ≤ ((as.length : ℚ) * c - as.sum) ^ 2 / as.length :=
    div_nonneg (sq_nonneg _) hn.le
  linarith [hkey ▸ hsq]

/-- `sqDist` over two `d`-vectors as a coordinatewise `Finset.range` sum. -/
theorem sqDist_eq_sum :
    ∀ (a b : List ℚ) (d : Nat), a.length = d → b.length = d →
      sqDist a b = ∑ j in Finset.range d, (a.getD j 0 - b.getD j 0) ^ 2 := by
  intro a
  induction a with
  | nil =>
      intro b d ha hb
      have : d = 0 := by simpa using ha.symm
      subst this
      simp [sqDist]
  | cons x xs ih =>
      intro b d ha hb
      match b, d with
      | y :: ys, dd + 1 =>
          have hxs : xs.length = dd := by simpa using ha
          have hys : ys.length = dd := by simpa using hb
          rw [show sqDist (x :: xs) (y :: ys) = (x - y) ^ 2 + sqDist xs ys from by
            simp [sqDist]]
          rw [Finset.sum_range_succ', ih ys dd hxs hys]
          simp [add_comm]

/-- Swapping a list sum with a `Finset.range` sum. -/
theorem list_sum_range_swap (d : Nat) (h : List ℚ → Nat → ℚ) :
    ∀ (pts : List (List ℚ)),
      (pts.map fun x => ∑ j in Finset.range d, h x j).sum =
        ∑ j in Finset.range d, (pts.map fun x => h x j).sum := by
  intro pts
  induction pts with
  | nil => simp
  | cons p t ih =>
      simp only [List.map_cons, List.sum_cons, ih, Finset.sum_add_distrib]

/-- The componentwise mean of a cluster minimizes its summed squared
distance among all `d`-vectors. -/
theorem cluster_mean_min (d : Nat) (pts : List (List ℚ)) (c : List ℚ)
    (hne : pts ≠ []) (hd : ∀ v ∈ pts, v.length = d) (hc : c.length = d) :
    (pts.map fun x => sqDist x (vecMean d pts)).sum ≤
      (pts.map fun x => sqDist x c).sum := by
  have hmlen : (vecMean d pts).length = d := by simp [vecMean]
  have hrw1 : (pts.map fun x => sqDist x (vecMean d pts)) =
      pts.map fun x => ∑ j in Finset.range d,
        (x.getD j 0 - (vecMean d pts).getD j 0) ^ 2 :=
    List.map_congr_left fun x hx => sqDist_eq_sum x _ d (hd x hx) hmlen
  have hrw2 : (pts.map fun x => sqDist x c) =
      pts.map fun x => ∑ j in Finset.range d, (x.getD j 0 - c.getD j 0) ^ 2 :=
    List.map_congr_left fun x hx => sqDist_eq_sum x c d (hd x hx) hc
  rw [hrw1, hrw2, list_sum_range_swap, list_sum_range_swap]
  apply Finset.sum_le_sum
  intro j hj
  have hmean : (vecMean d pts).getD j 0 =
      (pts.map fun v => v.getD j 0).sum / (pts.length : ℚ) := by
    rw [vecMean, getD_range_map _ _ _ _ (Finset.mem_range.mp hj)]
  rw [hmean]
  have hcomp1 : (pts.map fun x => (x.getD j 0 -
      (pts.map fun v => v.getD j 0).sum / (pts.length : ℚ)) ^ 2) =
      ((pts.map fun v => v.getD j 0).map fun a => (a -
        ((pts.map fun v => v.getD j 0).sum /
          ((pts.map fun v => v.getD j 0).length : ℚ))) ^ 2) := by
    rw [List.map_map]
    simp
  have hcomp2 : (pts.map fun x => (x.getD j 0 - c.getD j 0) ^ 2) =
      ((pts.map fun v => v.getD j 0).map fun a => (a - c.getD j 0) ^ 2) := by
    rw [List.map_map]
    rfl
  rw [hcomp1, hcomp2]
  exact sum_sq_dev_mean_le _ _ (by simpa using hne)

/-- Cluster members are rows of `X`. -/
theorem clusterPoints_subset (X : List (List ℚ)) (lab : List Nat) (i : Nat) :
    ∀ v ∈ clusterPoints X lab i, v ∈ X := by
  intro v hv
  rw [clusterPoints] at hv
  obtain ⟨p, hp, rfl⟩ := List.mem_map.mp hv
  exact (List.of_mem_zip (List.mem_of_mem_filter hp)).1

/-- C7: one completed iteration (reassign to nearest stored centroids, then
recompute centroids as cluster means, empty clusters zeroed) does not
increase the inertia: with `c = update(X, l)` the centroids completing the
iteration that stored `l`, the next completed iteration's inertia is at
most `inertia(X, l, c)`. -/
theorem kmeans_inertia_nonincreasing (k : Nat) (X : List (List ℚ)) (l : List Nat)
    (hrows : ∀ row ∈ X, row.length = (X.headD []).length)
    (hlen : l.length = X.length)
    (hlab : ∀ a ∈ l, a < k) (hk : 0 < k) :
    KMeans.calculateInertia k X
        (KMeans.assignClusters (KMeans.calculateDistance X (KMeans.updateCentroids k X l)))
        (KMeans.updateCentroids k X
          (KMeans.assignClusters
            (KMeans.calculateDistance X (KMeans.updateCentroids k X l))))
      ≤ KMeans.calculateInertia k X l (KMeans.updateCentroids k X l) := by
  have hclen : (KMeans.updateCentroids k X l).length = k := by
    simp [KMeans.updateCentroids]
  have hcrow : ∀ i, i < k →
      ((KMeans.updateCentroids k X l).getD i []).length = (X.headD []).length := by
    intro i hi
    rw [KMeans.updateCentroids, getD_range_map _ _ _ _ hi]
    by_cases hpts : 0 < (clusterPoints X l i).length
    · rw [if_pos hpts]; simp [vecMean]
    · rw [if_neg hpts]; simp
  have hl2lab : ∀ a ∈ KMeans.assignClusters
      (KMeans.calculateDistance X (KMeans.updateCentroids k X l)), a < k := by
    intro a ha
    rw [KMeans.assignClusters, KMeans.calculateDistance, List.map_map] at ha
    obtain ⟨x, hx, rfl⟩ := List.mem_map.mp ha
    have hne : ((KMeans.updateCentroids k X l).map fun cc => sqDist x cc) ≠ [] := by
      intro hcon
      have hc0 : KMeans.updateCentroids k X l = [] := by simpa using hcon
      rw [hc0] at hclen
      simp at hclen
      omega
    have hbound := argminIdx_lt_length _ hne
    simpa [hclen] using hbound
  have hstepB : KMeans.calculateInertia k X
      (KMeans.assignClusters (KMeans.calculateDistance X (KMeans.updateCentroids k X l)))
      (KMeans.updateCentroids k X l) ≤
      KMeans.calculateInertia k X l (KMeans.updateCentroids k X l) := by
    rw [calculateInertia_eq_perSample k X _ _ hl2lab,
      calculateInertia_eq_perSample k X l _ hlab]
    exact perSample_reassign k _ hclen hk X l hlen hlab
  have hstepA : KMeans.calculateInertia k X
      (KMeans.assignClusters (KMeans.calculateDistance X (KMeans.updateCentroids k X l)))
      (KMeans.updateCentroids k X
        (KMeans.assignClusters (KMeans.calculateDistance X (KMeans.updateCentroids k X l))))
      ≤ KMeans.calculateInertia k X
        (KMeans.assignClusters (KMeans.calculateDistance X (KMeans.updateCentroids k X l)))
        (KMeans.updateCentroids k X l) := by
    rw [KMeans.calculateInertia, KMeans.calculateInertia, list_range_map_sum,
      list_range_map_sum]
    apply Finset.sum_le_sum
    intro i hi
    by_cases hpts : clusterPoints X (KMeans.assignClusters
        (KMeans.calculateDistance X (KMeans.updateCentroids k X l))) i = []
    · rw [hpts]
      simp
    · have hptslen : 0 < (clusterPoints X (KMeans.assignClusters
          (KMeans.calculateDistance X (KMeans.updateCentroids k X l))) i).length :=
        List.length_pos.mpr hpts
      rw [show (KMeans.updateCentroids k X
          (KMeans.assignClusters
            (KMeans.calculateDistance X (KMeans.updateCentroids k X l)))).getD i [] =
          vecMean (X.headD []).length (clusterPoints X (KMeans.assignClusters
            (KMeans.calculateDistance X (KMeans.updateCentroids k X l))) i) from by
        rw [KMeans.updateCentroids, getD_range_map _ _ _ _ (Finset.mem_range.mp hi),
          if_pos hptslen]]
      exact cluster_mean_min (X.headD []).length _ _ hpts
        (fun v hv => hrows v (clusterPoints_subset X _ i v hv))
        (hcrow i (Finset.mem_range.mp hi))
  exact le_trans hstepA hstepB

/-- C7 witness: a concrete iteration step on `X = [[0],[1]]` with two
clusters and the stored assignment `[0, 1]`. -/
theorem kmeans_inertia_nonincreasing_witness :
    ((∀ row ∈ [[(0 : ℚ)], [1]], row.length = ([[(0 : ℚ)], [1]].headD []).length) ∧
      ([0, 1] : List Nat).length = [[(0 : ℚ)], [1]].length ∧
      (∀ a ∈ ([0, 1] : List Nat), a < 2) ∧ 0 < 2) ∧
    KMeans.calculateInertia 2 [[(0 : ℚ)], [1]]
        (KMeans.assignClusters (KMeans.calculateDistance [[(0 : ℚ)], [1]]
          (KMeans.updateCentroids 2 [[(0 : ℚ)], [1]] [0, 1])))
        (KMeans.updateCentroids 2 [[(0 : ℚ)], [1]]
          (KMeans.assignClusters (KMeans.calculateDistance [[(0 : ℚ)], [1]]
            (KMeans.updateCentroids 2 [[(0 : ℚ)], [1]] [0, 1]))))
      ≤ KMeans.calculateInertia 2 [[(0 : ℚ)], [1]] [0, 1]
          (KMeans.updateCentroids 2 [[(0 : ℚ)], [1]] [0, 1]) :=
  have h1 : ∀ row ∈ [[(0 : ℚ)], [1]], row.length = ([[(0 : ℚ)], [1]].headD []).length := by
    decide
  have h2 : ([0, 1] : List Nat).length = [[(0 : ℚ)], [1]].length := by decide
  have h3 : ∀ a ∈ ([0, 1] : List Nat), a < 2 := by decide
  have h4 : 0 < 2 := by decide
  ⟨⟨h1, h2, h3, h4⟩, kmeans_inertia_nonincreasing 2 [[(0 : ℚ)], [1]] [0, 1] h1 h2 h3 h4⟩
